import Mathlib

/-!
# Boot and pager bring-up of `core/arch/arm/kernel/generic_boot.c`

A shallow embedding of the boot orchestration of the secure-world kernel:
`get_block_size`, both variants of `init_runtime`, `init_sec_mon`,
`init_vfp_sec`, `init_vfp_nsec`, `main_init_gic`, `init_primary_helper`,
`init_secondary_helper` and the `generic_boot_*` entry points.

* Machine words (`size_t`, `vaddr_t`) are natural numbers; every operation that
  can wrap is reduced modulo `2 ^ bits` explicitly.
* Memory is a byte-addressed function `Nat → Nat`; `memcpy` and `memset` update it.
* Calls are logged, in program order, in `State.trace`.
* A fatal halt (`panic()`, a failed `TEE_ASSERT`, a failed `assert`) ends the run
  with `Outcome.halt`, keeping the state reached so far.
* Collaborators whose code lives in other files (heap, hashing primitive, MMU
  table walk, pager, secure-DDR allocator) are fields of `Env`; constants of
  absent headers are fields of `Config`; linker symbols are fields of `Layout`.
* Diagnostic output (`EMSG`, `DMSG`, `IMSG`) has no effect on the state and is
  left out.
-/

namespace GenericBoot

/-! ## Machine arithmetic -/

/-- Addition of two machine words of `w` bits. -/
def wadd (w a b : Nat) : Nat := (a + b) % 2 ^ w

/-- Subtraction of two machine words of `w` bits (wraps below zero). -/
def wsub (w a b : Nat) : Nat := (a % 2 ^ w + (2 ^ w - b % 2 ^ w)) % 2 ^ w

/-- Multiplication of two machine words of `w` bits. -/
def wmul (w a b : Nat) : Nat := (a * b) % 2 ^ w

/-- Bitwise complement `~x` of a machine word of `w` bits. -/
def wnot (w x : Nat) : Nat := 2 ^ w - 1 - x % 2 ^ w

/-- The macro `ROUNDDOWN(v, size)` of `util.h`: `v & ~(size - 1)`. -/
def ROUNDDOWN (w v size : Nat) : Nat := v &&& wnot w (wsub w size 1)

/-- The macro `ROUNDUP(v, size)` of `util.h`: `(v + (size - 1)) & ~(size - 1)`. -/
def ROUNDUP (w v size : Nat) : Nat := wadd w v (wsub w size 1) &&& wnot w (wsub w size 1)

/-! ## Constants -/

/-- The sentinel `PADDR_INVALID` defined at the top of the file. -/
def PADDR_INVALID : Nat := 0xffffffff

/-- Shift of a small page. -/
def SMALL_PAGE_SHIFT : Nat := 12

/-- Size of a small page in bytes. -/
def SMALL_PAGE_SIZE : Nat := 4096

/-- Offset mask of a small page. -/
def SMALL_PAGE_MASK : Nat := 0xfff

/-- Size of a SHA-256 digest in bytes. -/
def TEE_SHA256_HASH_SIZE : Nat := 32

/-- The result code `TEE_SUCCESS`. -/
def TEE_SUCCESS : Nat := 0

/-- The value `UINT_MAX` of a 32-bit `unsigned`. -/
def UINT_MAX : Nat := 2 ^ 32 - 1

/-! ## Configuration, linker symbols, collaborators -/

/-- Build configuration and the platform constants of absent headers. -/
structure Config where
  /-- Width in bits of `size_t` and `vaddr_t`. -/
  bits : Nat
  CFG_WITH_PAGER : Bool
  CFG_WITH_ARM_TRUSTED_FW : Bool
  CFG_WITH_VFP : Bool
  /-- Set for an `ARM64` build, clear for `ARM32`. -/
  ARM64 : Bool
  CFG_TEE_RAM_START : Nat
  CFG_TEE_RAM_VA_SIZE : Nat
  TZSRAM_SIZE : Nat
  TEE_PAGER_AREA_RO : Nat
  TEE_PAGER_AREA_X : Nat
  CPSR_MODE_SVC : Nat
  CPSR_I : Nat
  NSACR_CP10 : Nat
  NSACR_CP11 : Nat
  CPACR_ASEDIS : Nat
  CPACR_D32DIS : Nat
  /-- The value `CPACR_CP(10, CPACR_CP_ACCESS_FULL)`. -/
  CPACR_CP10_FULL : Nat
  /-- The value `CPACR_CP(11, CPACR_CP_ACCESS_FULL)`. -/
  CPACR_CP11_FULL : Nat

/-- Addresses and sizes given by the linker (`__bss_start`, `__init_size`, ...). -/
structure Layout where
  bss_start : Nat
  bss_end : Nat
  heap1_start : Nat
  heap1_end : Nat
  heap2_start : Nat
  heap2_end : Nat
  init_start : Nat
  init_size : Nat
  text_init_start : Nat
  pageable_start : Nat
  pageable_end : Nat
  pageable_part_start : Nat
  pageable_part_end : Nat
  tmp_hashes_start : Nat
  tmp_hashes_size : Nat

/-- An allocated interval `[base, base + size)` of a pool (`tee_mm_entry_t`). -/
structure tee_mm_entry where
  base : Nat
  size : Nat
deriving DecidableEq

/-- An address space `[lo, hi)` with its granularity and its allocated intervals
(`tee_mm_pool_t`). -/
structure tee_mm_pool where
  lo : Nat
  hi : Nat
  shift : Nat
  entries : List tee_mm_entry
deriving DecidableEq

/-- Result of `core_mmu_find_table`: the fields of `struct core_mmu_table_info`
that `get_block_size` reads. -/
structure core_mmu_table_info where
  level : Nat
  shift : Nat
deriving DecidableEq

/-- Collaborators implemented in other files. -/
structure Env where
  /-- Heap allocation: the address returned, `0` for `NULL`. -/
  malloc : Nat → Nat
  /-- The pool `tee_mm_sec_ddr` as `teecore_init_ta_ram` leaves it. -/
  teecore_init_ta_ram : tee_mm_pool
  /-- Allocation in `tee_mm_sec_ddr`: the entry returned, `none` for `NULL`. -/
  tee_mm_alloc : tee_mm_pool → Nat → Option tee_mm_entry
  /-- The hashing primitive on the digest bytes and the data bytes; returns a `TEE_Result`. -/
  hash_sha256_check : List Nat → List Nat → Nat
  /-- Table walk for an address up to a maximal level; `none` when it fails. -/
  core_mmu_find_table : Nat → Nat → Option core_mmu_table_info
  /-- Pager area registration (entry, flags, store, hashes); `false` when it fails. -/
  tee_pager_add_area : tee_mm_entry → Nat → Nat → Nat → Bool
  /-- Result of `init_teecore`. -/
  init_teecore : Nat

/-! ## State, log and halts -/

/-- Cache operations passed to `cache_maintenance_l1`. -/
inductive CacheOp where
  | DCACHE_AREA_CLEAN
  | ICACHE_AREA_INVALIDATE
deriving DecidableEq

/-- Calls made during bring-up, with their arguments and, where one is used, their result. -/
inductive Event where
  | thread_set_exceptions_all
  | init_vfp_sec
  | vfp_disable
  | init_runtime (pageable_part : Nat)
  | memset (dst val n : Nat)
  | thread_init_boot_thread
  | malloc_add_pool (start size : Nat)
  | malloc (size res : Nat)
  | memcpy (dst src n : Nat)
  | teecore_init_ta_ram
  | tee_mm_alloc (size : Nat) (res : Option tee_mm_entry)
  | hash_sha256_check (hash page len res : Nat)
  | cache_maintenance_l1 (op : CacheOp) (p len : Nat)
  | core_mmu_find_table (va max_level : Nat) (res : Option core_mmu_table_info)
  | tee_mm_init (lo hi shift flags : Nat) (ok : Bool)
  | tee_mm_alloc2 (base size : Nat) (ok : Bool)
  | tee_pager_set_alias_area (mm : tee_mm_entry)
  | tee_pager_add_area (mm : tee_mm_entry) (flags store hashes : Nat) (ok : Bool)
  | tee_pager_add_pages (va npages : Nat) (unmap : Bool)
  | thread_init_primary
  | thread_init_per_cpu
  | init_sec_mon (nsec_entry : Nat)
  | main_init_gic
  | init_vfp_nsec
  | init_teecore (res : Nat)
deriving DecidableEq

/-- The fatal halts of the file, one per check. -/
inductive Halt where
  /-- `assert` in `init_sec_mon`. -/
  | sec_mon_entry
  /-- `panic()` after a failed `core_mmu_find_table`. -/
  | find_table
  /-- `TEE_ASSERT(pageable_size % SMALL_PAGE_SIZE == 0)`. -/
  | pageable_size_unaligned
  /-- `TEE_ASSERT(hash_size == (size_t)__tmp_hashes_size)`. -/
  | hash_size_mismatch
  /-- `TEE_ASSERT(hashes)`. -/
  | malloc_failed
  /-- `TEE_ASSERT(mm)` after `tee_mm_alloc`. -/
  | store_alloc_failed
  /-- `panic()` in the verification loop, with the page index. -/
  | hash_failed (n : Nat)
  /-- The loop model ran out of iterations (never reached from `init_runtime`). -/
  | out_of_fuel
  /-- `panic()` after a failed `tee_mm_init`. -/
  | vcore_init_failed
  /-- `TEE_ASSERT(mm)` after the alias reservation. -/
  | alias_alloc_failed
  /-- `TEE_ASSERT(mm)` after the reservation of the resident range. -/
  | resident_alloc_failed
  /-- `TEE_ASSERT(mm)` after the reservation of the paged range. -/
  | paged_alloc_failed
  /-- `panic()` after a failed `tee_pager_add_area`. -/
  | add_area_failed
  /-- `panic()` after a failed `init_teecore`. -/
  | teecore_failed
deriving DecidableEq

/-- The secure-monitor context of the normal world (`struct sm_nsec_ctx`). -/
structure sm_nsec_ctx where
  mon_lr : Nat
  mon_spsr : Nat
deriving DecidableEq

/-- The machine state the bring-up acts on. -/
structure State where
  /-- Byte-addressed memory. -/
  mem : Nat → Nat
  /-- The pool `tee_mm_sec_ddr`, once initialised. -/
  tee_mm_sec_ddr : Option tee_mm_pool
  /-- The pool `tee_mm_vcore`, once initialised. -/
  tee_mm_vcore : Option tee_mm_pool
  nsec_ctx : sm_nsec_ctx
  cpacr : Nat
  nsacr : Nat
  /-- The calls made so far, oldest first. -/
  trace : List Event

/-- How a run ends: with a value, or halted. -/
inductive Outcome (α : Type) where
  | done (a : α)
  | halt (h : Halt)
deriving DecidableEq

/-- The state reached and the outcome. -/
structure Run (α : Type) where
  state : State
  outcome : Outcome α

/-- A computation of the bring-up. -/
def Boot (α : Type) : Type := State → Run α

/-- Return a value without touching the state. -/
def Boot.pure {α : Type} (a : α) : Boot α := fun s => ⟨s, Outcome.done a⟩

/-- Sequencing: a halt of the first computation ends the run. -/
def Boot.bind {α β : Type} (x : Boot α) (f : α → Boot β) : Boot β := fun s =>
  match (x s).outcome with
  | Outcome.done a => f a (x s).state
  | Outcome.halt h => ⟨(x s).state, Outcome.halt h⟩

instance : Monad Boot where
  pure := Boot.pure
  bind := Boot.bind

/-- Halt the core. -/
def halt {α : Type} (h : Halt) : Boot α := fun s => ⟨s, Outcome.halt h⟩

/-- Log a call. -/
def emit (e : Event) : Boot Unit := fun s => ⟨{ s with trace := s.trace ++ [e] }, Outcome.done ()⟩

/-- Read the state. -/
def getState : Boot State := fun s => ⟨s, Outcome.done s⟩

/-- Change the state. -/
def modifyState (f : State → State) : Boot Unit := fun s => ⟨f s, Outcome.done ()⟩

/-- The macro `TEE_ASSERT(expr)`: halt when the expression is false. -/
def TEE_ASSERT (expr : Bool) (h : Halt) : Boot Unit :=
  if expr then Boot.pure () else halt h

/-- The bytes `mem[addr .. addr + n)`. -/
def readBytes (mem : Nat → Nat) (addr n : Nat) : List Nat :=
  (List.range n).map (fun i => mem (addr + i))

/-- The library call `memcpy(dst, src, n)`: the `n` bytes at `src` are read and stored at `dst`. -/
def memcpy (dst src n : Nat) : Boot Unit := fun s =>
  ⟨{ s with
      mem := fun a => if dst ≤ a ∧ a < dst + n then s.mem (src + (a - dst)) else s.mem a,
      trace := s.trace ++ [Event.memcpy dst src n] }, Outcome.done ()⟩

/-- The library call `memset(dst, val, n)`. -/
def memset (dst val n : Nat) : Boot Unit := fun s =>
  ⟨{ s with
      mem := fun a => if dst ≤ a ∧ a < dst + n then val else s.mem a,
      trace := s.trace ++ [Event.memset dst val n] }, Outcome.done ()⟩

/-! ## The region allocator of the virtual core space -/

/-- Modelled from the spec: `tee_mm_init` (`core/mm/tee_mm.c` is not among the sources).
`init(address_space, low, high, granularity)` establishes an address space spanning
`[low, high)`, aligned to the granularity; it fails if `low >= high` or misaligned. -/
def tee_mm_init (lo hi shift : Nat) : Option tee_mm_pool :=
  if lo < hi ∧ lo % 2 ^ shift = 0 ∧ hi % 2 ^ shift = 0 then
    some { lo := lo, hi := hi, shift := shift, entries := [] }
  else none

/-- Two intervals that share no address, in the form the allocator checks it. -/
def tee_mm_entry.disjoint (a b : tee_mm_entry) : Bool :=
  a.base + a.size ≤ b.base || b.base + b.size ≤ a.base

/-- Modelled from the spec: `tee_mm_alloc2` (`core/mm/tee_mm.c` is not among the sources).
`alloc_fixed(address_space, base, size)` enforces that the interval lies within the address
space window and is currently free; it returns no entry otherwise. The interval reserved is
`[base, base + size)`: the spec rounds the size up to the granularity for `alloc` only, and
such a rounding would only enlarge what is reserved. -/
def tee_mm_alloc2 (pool : tee_mm_pool) (base size : Nat) : Option (tee_mm_entry × tee_mm_pool) :=
  if pool.lo ≤ base ∧ base + size ≤ pool.hi ∧
      pool.entries.all (fun e => tee_mm_entry.disjoint { base := base, size := size } e) then
    some ({ base := base, size := size },
      { pool with entries := pool.entries ++ [{ base := base, size := size }] })
  else none

/-! ## Secure monitor and FPU set-up -/

/-- The weak default `main_init_gic`: an empty body. -/
def main_init_gic : Boot Unit := emit Event.main_init_gic

/-- Both variants of `init_sec_mon`. -/
def init_sec_mon (cfg : Config) (nsec_entry : Nat) : Boot Unit := do
  emit (Event.init_sec_mon nsec_entry)
  if cfg.CFG_WITH_ARM_TRUSTED_FW then
    -- assert(nsec_entry == PADDR_INVALID); nothing else: there is no secure monitor
    if nsec_entry = PADDR_INVALID then Boot.pure () else halt Halt.sec_mon_entry
  else
    -- assert(nsec_entry != PADDR_INVALID);
    if nsec_entry = PADDR_INVALID then halt Halt.sec_mon_entry
    else
      modifyState (fun s => { s with
        nsec_ctx := { mon_lr := nsec_entry, mon_spsr := cfg.CPSR_MODE_SVC ||| cfg.CPSR_I } })

/-- Both variants of `init_vfp_nsec`. -/
def init_vfp_nsec (cfg : Config) : Boot Unit := do
  emit Event.init_vfp_nsec
  if cfg.CFG_WITH_ARM_TRUSTED_FW then Boot.pure ()
  else
    -- write_nsacr(read_nsacr() | NSACR_CP10 | NSACR_CP11);
    modifyState (fun s => { s with nsacr := s.nsacr ||| cfg.NSACR_CP10 ||| cfg.NSACR_CP11 })

/-- The three variants of `init_vfp_sec`. -/
def init_vfp_sec (cfg : Config) : Boot Unit := do
  emit Event.init_vfp_sec
  if cfg.CFG_WITH_VFP then
    if cfg.ARM64 then
      emit Event.vfp_disable
    else
      -- cpacr &= ~(CPACR_ASEDIS | CPACR_D32DIS); cpacr |= CPACR_CP(10, ..); cpacr |= CPACR_CP(11, ..);
      modifyState (fun s => { s with
        cpacr := ((s.cpacr &&& wnot 32 (cfg.CPACR_ASEDIS ||| cfg.CPACR_D32DIS))
                    ||| cfg.CPACR_CP10_FULL) ||| cfg.CPACR_CP11_FULL })
  else Boot.pure ()

/-! ## `get_block_size` -/

/-- A call of `core_mmu_find_table`. -/
def core_mmu_find_table (env : Env) (va max_level : Nat) : Boot (Option core_mmu_table_info) := do
  emit (Event.core_mmu_find_table va max_level (env.core_mmu_find_table va max_level))
  Boot.pure (env.core_mmu_find_table va max_level)

/-- The expression `1 << shift` of a 32-bit `int`, converted to a word of `w` bits: the low
32 bits of the shifted one, sign-extended. For a shift of 31 or more C leaves the value open;
the value taken here is that of a logical shift of the 32-bit register: bit 31 for a shift
of 31, zero for a larger one. -/
def shl_one (w shift : Nat) : Nat :=
  if 2 ^ shift % 2 ^ 32 < 2 ^ 31 then 2 ^ shift % 2 ^ 32 % 2 ^ w
  else (2 ^ shift % 2 ^ 32 + (2 ^ (w + 32) - 2 ^ 32)) % 2 ^ w

/-- The function `get_block_size`: the block size of the table one level above the deepest
table that maps `CFG_TEE_RAM_START`. -/
def get_block_size (cfg : Config) (env : Env) : Boot Nat := do
  let r ← core_mmu_find_table env cfg.CFG_TEE_RAM_START UINT_MAX
  match r with
  | none => halt Halt.find_table
  | some tbl_info =>
    -- l = tbl_info.level - 1, an `unsigned`
    let l := wsub 32 tbl_info.level 1
    let r ← core_mmu_find_table env cfg.CFG_TEE_RAM_START l
    match r with
    | none => halt Halt.find_table
    | some tbl_info =>
      -- return 1 << tbl_info.shift; the shift of an `int`, converted to `size_t`
      Boot.pure (shl_one cfg.bits tbl_info.shift)

/-! ## `init_runtime`, pager variant -/

/-- The local `init_size = (size_t)__init_size`. -/
def init_size (cfg : Config) (L : Layout) : Nat := L.init_size % 2 ^ cfg.bits

/-- The local `pageable_size = __pageable_end - __pageable_start`. -/
def pageable_size (cfg : Config) (L : Layout) : Nat :=
  wsub cfg.bits L.pageable_end L.pageable_start

/-- Lines 166-176: `hash_size = (pageable_size / page) * digest` and the two assertions on
it, for a page size and a digest size; returns `hash_size`. -/
def check_hash_size (w page digest pageable_size tmp_hashes_size : Nat) : Boot Nat := do
  let hash_size := wmul w (pageable_size / page) digest
  TEE_ASSERT (pageable_size % page == 0) Halt.pageable_size_unaligned
  TEE_ASSERT (hash_size == tmp_hashes_size % 2 ^ w) Halt.hash_size_mismatch
  Boot.pure hash_size

/-- Lines 183-193: clear BSS, set up the boot thread and the heap, copy the hash table to the
heap; returns `hashes`. -/
def load_hashes (cfg : Config) (env : Env) (L : Layout) (hash_size : Nat) : Boot Nat := do
  memset L.bss_start 0 (wsub cfg.bits L.bss_end L.bss_start)
  emit Event.thread_init_boot_thread
  emit (Event.malloc_add_pool L.heap1_start (wsub cfg.bits L.heap1_end L.heap1_start))
  emit (Event.malloc_add_pool L.heap2_start (wsub cfg.bits L.heap2_end L.heap2_start))
  let hashes := env.malloc hash_size
  emit (Event.malloc hash_size hashes)
  TEE_ASSERT (hashes != 0) Halt.malloc_failed
  memcpy hashes L.tmp_hashes_start hash_size
  Boot.pure hashes

/-- The call `teecore_init_ta_ram()`: it initialises `tee_mm_sec_ddr`. -/
def teecore_init_ta_ram (env : Env) : Boot Unit := do
  emit Event.teecore_init_ta_ram
  modifyState (fun s => { s with tee_mm_sec_ddr := some env.teecore_init_ta_ram })

/-- The call `tee_mm_alloc(&tee_mm_sec_ddr, size)`. -/
def tee_mm_alloc_sec_ddr (env : Env) (size : Nat) : Boot (Option tee_mm_entry) := do
  let s ← getState
  match s.tee_mm_sec_ddr with
  | none =>
    emit (Event.tee_mm_alloc size none)
    Boot.pure none
  | some pool =>
    let r := env.tee_mm_alloc pool size
    emit (Event.tee_mm_alloc size r)
    match r with
    | none => Boot.pure none
    | some mm =>
      modifyState (fun s => { s with
        tee_mm_sec_ddr := some { pool with entries := pool.entries ++ [mm] } })
      Boot.pure (some mm)

/-- Lines 199-208: allocate the store in secure DDR and copy the init part and the pageable
part into it; returns `paged_store`. -/
def relocate (cfg : Config) (env : Env) (L : Layout) (pageable_part : Nat) : Boot Nat := do
  teecore_init_ta_ram env
  let mm ← tee_mm_alloc_sec_ddr env (pageable_size cfg L)
  match mm with
  | none => halt Halt.store_alloc_failed
  | some mm =>
    -- paged_store = (uint8_t *)tee_mm_get_smem(mm);
    let paged_store := mm.base
    memcpy paged_store L.init_start (init_size cfg L)
    memcpy (paged_store + init_size cfg L) pageable_part
      (wsub cfg.bits L.pageable_part_end L.pageable_part_start)
    Boot.pure paged_store

/-- A call of `hash_sha256_check(hash, page, len)` on the bytes in memory. -/
def hash_sha256_check (env : Env) (hash page len : Nat) : Boot Nat := do
  let s ← getState
  let res := env.hash_sha256_check (readBytes s.mem hash TEE_SHA256_HASH_SIZE)
    (readBytes s.mem page len)
  emit (Event.hash_sha256_check hash page len res)
  Boot.pure res

/-- Lines 212-224: the loop `for (n = ..; (n * SMALL_PAGE_SIZE) < pageable_size; n++)`,
entered at index `n`; `fuel` bounds the number of iterations. -/
def check_pages (w : Nat) (env : Env) (hashes paged_store pageable_size : Nat) :
    Nat → Nat → Boot Unit
  | 0, _ => halt Halt.out_of_fuel
  | fuel + 1, n =>
    if wmul w n SMALL_PAGE_SIZE < pageable_size then do
      let hash := hashes + n * TEE_SHA256_HASH_SIZE
      let page := paged_store + n * SMALL_PAGE_SIZE
      let res ← hash_sha256_check env hash page SMALL_PAGE_SIZE
      if res ≠ TEE_SUCCESS then halt (Halt.hash_failed n)
      else check_pages w env hashes paged_store pageable_size fuel (wadd w n 1)
    else Boot.pure ()

/-- Lines 232-244: copy what is not initialised in the last init page and clean the caches
of that page. -/
def backfill_init (cfg : Config) (L : Layout) (paged_store : Nat) : Boot Unit := do
  if init_size cfg L % SMALL_PAGE_SIZE ≠ 0 then
    memcpy (L.init_start + init_size cfg L) (paged_store + init_size cfg L)
      (SMALL_PAGE_SIZE - init_size cfg L % SMALL_PAGE_SIZE)
    let p := wadd cfg.bits L.init_start (init_size cfg L) &&& wnot cfg.bits SMALL_PAGE_MASK
    emit (Event.cache_maintenance_l1 CacheOp.DCACHE_AREA_CLEAN p SMALL_PAGE_SIZE)
    emit (Event.cache_maintenance_l1 CacheOp.ICACHE_AREA_INVALIDATE p SMALL_PAGE_SIZE)
  else Boot.pure ()

/-- The call `tee_mm_init(&tee_mm_vcore, lo, hi, shift, flags)`. -/
def tee_mm_init_vcore (lo hi shift flags : Nat) : Boot Bool := do
  match tee_mm_init lo hi shift with
  | none =>
    emit (Event.tee_mm_init lo hi shift flags false)
    Boot.pure false
  | some pool =>
    emit (Event.tee_mm_init lo hi shift flags true)
    modifyState (fun s => { s with tee_mm_vcore := some pool })
    Boot.pure true

/-- The call `tee_mm_alloc2(&tee_mm_vcore, base, size)`. -/
def tee_mm_alloc2_vcore (base size : Nat) : Boot (Option tee_mm_entry) := do
  let s ← getState
  match s.tee_mm_vcore.bind (fun pool => tee_mm_alloc2 pool base size) with
  | none =>
    emit (Event.tee_mm_alloc2 base size false)
    Boot.pure none
  | some (mm, pool) =>
    emit (Event.tee_mm_alloc2 base size true)
    modifyState (fun s => { s with tee_mm_vcore := some pool })
    Boot.pure (some mm)

/-- The fields `(tee_mm_vcore.lo, tee_mm_vcore.hi)`. -/
def vcore_bounds : Boot (Nat × Nat) := do
  let s ← getState
  match s.tee_mm_vcore with
  | none => Boot.pure (0, 0)
  | some pool => Boot.pure (pool.lo, pool.hi)

/-- Lines 258-284: reserve the alias window at the top of the virtual core space, the
resident range and the paged range; returns the entry of the paged range. -/
def reserve_vcore (cfg : Config) (L : Layout) : Boot tee_mm_entry := do
  let b ← vcore_bounds
  let mm ← tee_mm_alloc2_vcore (wsub cfg.bits b.2 cfg.TZSRAM_SIZE) cfg.TZSRAM_SIZE
  match mm with
  | none => halt Halt.alias_alloc_failed
  | some mm =>
    emit (Event.tee_pager_set_alias_area mm)
    let b ← vcore_bounds
    let mm ← tee_mm_alloc2_vcore b.1 (wsub cfg.bits L.text_init_start b.1)
    match mm with
    | none => halt Halt.resident_alloc_failed
    | some _ =>
      let mm ← tee_mm_alloc2_vcore L.pageable_start (pageable_size cfg L)
      match mm with
      | none => halt Halt.paged_alloc_failed
      | some mm => Boot.pure mm

/-- Lines 250-284: initialise the virtual core space with the bounds rounded to the block
size, then make the three reservations; returns the entry of the paged range. -/
def build_vcore (cfg : Config) (env : Env) (L : Layout) : Boot tee_mm_entry := do
  let block_size ← get_block_size cfg env
  let ok ← tee_mm_init_vcore (ROUNDDOWN cfg.bits cfg.CFG_TEE_RAM_START block_size)
    (ROUNDUP cfg.bits (wadd cfg.bits cfg.CFG_TEE_RAM_START cfg.CFG_TEE_RAM_VA_SIZE) block_size)
    SMALL_PAGE_SHIFT 0
  if !ok then halt Halt.vcore_init_failed
  else reserve_vcore cfg L

/-- A call of `tee_pager_add_area`. -/
def tee_pager_add_area (env : Env) (mm : tee_mm_entry) (flags store hashes : Nat) : Boot Bool := do
  emit (Event.tee_pager_add_area mm flags store hashes (env.tee_pager_add_area mm flags store hashes))
  Boot.pure (env.tee_pager_add_area mm flags store hashes)

/-- Lines 285-293: register the paged area with the pager and mark its pages. -/
def register_pager (cfg : Config) (env : Env) (L : Layout) (mm : tee_mm_entry)
    (paged_store hashes : Nat) : Boot Unit := do
  let ok ← tee_pager_add_area env mm (cfg.TEE_PAGER_AREA_RO ||| cfg.TEE_PAGER_AREA_X)
    paged_store hashes
  if !ok then halt Halt.add_area_failed
  else
    emit (Event.tee_pager_add_pages L.pageable_start
      (ROUNDUP cfg.bits (init_size cfg L) SMALL_PAGE_SIZE / SMALL_PAGE_SIZE) false)
    emit (Event.tee_pager_add_pages
      (wadd cfg.bits L.pageable_start (ROUNDUP cfg.bits (init_size cfg L) SMALL_PAGE_SIZE))
      (wsub cfg.bits (pageable_size cfg L) (ROUNDUP cfg.bits (init_size cfg L) SMALL_PAGE_SIZE)
        / SMALL_PAGE_SIZE) true)

/-- Lines 163-208 of `init_runtime` (pager variant): check the size of the hash table, load
it and relocate the image; returns `(hashes, paged_store)`. -/
def init_runtime_relocated (cfg : Config) (env : Env) (L : Layout) (pageable_part : Nat) :
    Boot (Nat × Nat) := do
  let hash_size ← check_hash_size cfg.bits SMALL_PAGE_SIZE TEE_SHA256_HASH_SIZE
    (pageable_size cfg L) L.tmp_hashes_size
  let hashes ← load_hashes cfg env L hash_size
  let paged_store ← relocate cfg env L pageable_part
  Boot.pure (hashes, paged_store)

/-- Lines 163-244 of `init_runtime` (pager variant): after relocation, verify every page and
complete the last init page; returns `(hashes, paged_store)`. -/
def init_runtime_image (cfg : Config) (env : Env) (L : Layout) (pageable_part : Nat) :
    Boot (Nat × Nat) := do
  let r ← init_runtime_relocated cfg env L pageable_part
  check_pages cfg.bits env r.1 r.2 (pageable_size cfg L) (pageable_size cfg L + 1) 0
  backfill_init cfg L r.2
  Boot.pure r

/-- The pager variant of `init_runtime`. -/
def init_runtime_pager (cfg : Config) (env : Env) (L : Layout) (pageable_part : Nat) :
    Boot Unit := do
  let r ← init_runtime_image cfg env L pageable_part
  let mm ← build_vcore cfg env L
  register_pager cfg env L mm r.2 r.1

/-- The variant of `init_runtime` without pager. -/
def init_runtime_nopager (cfg : Config) (env : Env) (L : Layout) : Boot Unit := do
  memset L.bss_start 0 (wsub cfg.bits L.bss_end L.bss_start)
  emit Event.thread_init_boot_thread
  emit (Event.malloc_add_pool L.heap1_start (wsub cfg.bits L.heap1_end L.heap1_start))
  teecore_init_ta_ram env

/-- The function `init_runtime`, in the variant the build selects. -/
def init_runtime (cfg : Config) (env : Env) (L : Layout) (pageable_part : Nat) : Boot Unit := do
  emit (Event.init_runtime pageable_part)
  if cfg.CFG_WITH_PAGER then init_runtime_pager cfg env L pageable_part
  else init_runtime_nopager cfg env L

/-! ## Boot orchestration -/

/-- The function `init_primary_helper`. -/
def init_primary_helper (cfg : Config) (env : Env) (L : Layout)
    (pageable_part nsec_entry : Nat) : Boot Unit := do
  emit Event.thread_set_exceptions_all
  init_vfp_sec cfg
  init_runtime cfg env L pageable_part
  emit Event.thread_init_primary
  emit Event.thread_init_per_cpu
  init_sec_mon cfg nsec_entry
  main_init_gic
  init_vfp_nsec cfg
  emit (Event.init_teecore env.init_teecore)
  if env.init_teecore ≠ TEE_SUCCESS then halt Halt.teecore_failed else Boot.pure ()

/-- The function `init_secondary_helper`. -/
def init_secondary_helper (cfg : Config) (nsec_entry : Nat) : Boot Unit := do
  emit Event.thread_set_exceptions_all
  emit Event.thread_init_per_cpu
  init_sec_mon cfg nsec_entry
  init_vfp_sec cfg
  init_vfp_nsec cfg

/-- Both variants of `generic_boot_init_primary`; with ARM Trusted Firmware the entry of the
normal world is `PADDR_INVALID`. -/
def generic_boot_init_primary (cfg : Config) (env : Env) (L : Layout)
    (pageable_part nsec_entry : Nat) : Boot Unit :=
  if cfg.CFG_WITH_ARM_TRUSTED_FW then init_primary_helper cfg env L pageable_part PADDR_INVALID
  else init_primary_helper cfg env L pageable_part nsec_entry

/-- The function `generic_boot_cpu_on_handler` (build with ARM Trusted Firmware); returns 0. -/
def generic_boot_cpu_on_handler (cfg : Config) (_a0 _a1 : Nat) : Boot Nat := do
  init_secondary_helper cfg PADDR_INVALID
  Boot.pure 0

/-- The function `generic_boot_init_secondary` (build without ARM Trusted Firmware). -/
def generic_boot_init_secondary (cfg : Config) (nsec_entry : Nat) : Boot Unit :=
  init_secondary_helper cfg nsec_entry

/-! ## Vocabulary of the properties -/

/-- The steps of the boot state machine of a core. -/
def Event.isStep : Event → Bool
  | Event.thread_set_exceptions_all => true
  | Event.init_vfp_sec => true
  | Event.init_runtime _ => true
  | Event.thread_init_primary => true
  | Event.thread_init_per_cpu => true
  | Event.init_sec_mon _ => true
  | Event.main_init_gic => true
  | Event.init_vfp_nsec => true
  | Event.init_teecore _ => true
  | _ => false

/-- The registrations with the pager: `tee_pager_add_area` and `tee_pager_add_pages`. -/
def Event.isPagerRegistration : Event → Bool
  | Event.tee_pager_add_area _ _ _ _ _ => true
  | Event.tee_pager_add_pages _ _ _ => true
  | _ => false

/-- The call of `init_teecore`. -/
def Event.isTeecore : Event → Bool
  | Event.init_teecore _ => true
  | _ => false

/-- The calls of the hashing primitive. -/
def Event.isHashCheck : Event → Bool
  | Event.hash_sha256_check _ _ _ _ => true
  | _ => false

/-- The calls a secondary core makes: masking exceptions, per-core set-up, secure-monitor
context, FPU. Every other call belongs to the one-time work of the primary core. -/
def Event.isPerCore : Event → Bool
  | Event.thread_set_exceptions_all => true
  | Event.thread_init_per_cpu => true
  | Event.init_sec_mon _ => true
  | Event.init_vfp_sec => true
  | Event.vfp_disable => true
  | Event.init_vfp_nsec => true
  | _ => false

/-- A computation only appends to the log, and every call it logs satisfies `P`. -/
structure Emits {α : Type} (P : Event → Prop) (x : Boot α) : Prop where
  out : ∀ s, ∃ t, (x s).state.trace = s.trace ++ t ∧ ∀ e ∈ t, P e

/-- The result of the hashing primitive on page `n`: digest `hashes[n*32 .. n*32+32)` against
data `store[n*4096 .. n*4096+4096)` in memory `mem`. -/
def pageCheck (env : Env) (mem : Nat → Nat) (hashes store n : Nat) : Nat :=
  env.hash_sha256_check (readBytes mem (hashes + n * 32) 32) (readBytes mem (store + n * 4096) 4096)

/-- The logged call of the hashing primitive for page `n`. -/
def pageCheckEvent (env : Env) (mem : Nat → Nat) (hashes store n : Nat) : Event :=
  Event.hash_sha256_check (hashes + n * 32) (store + n * 4096) 4096 (pageCheck env mem hashes store n)

/-- No step of the boot state machine, no pager registration, no call of the hashing
primitive. -/
def Event.isQuiet (e : Event) : Bool :=
  !e.isStep && !e.isPagerRegistration && !e.isHashCheck

/-- The mathematical round-up of `v` to a multiple of `size`. -/
def roundup (v size : Nat) : Nat := (v + size - 1) / size * size

/-- The bring-up of one secondary core from its entry point: `generic_boot_cpu_on_handler`
in a build with ARM Trusted Firmware, `generic_boot_init_secondary` otherwise. -/
def secondary_entry (cfg : Config) (a0 a1 : Nat) : Boot Unit :=
  if cfg.CFG_WITH_ARM_TRUSTED_FW then do
    let _ ← generic_boot_cpu_on_handler cfg a0 a1
    Boot.pure ()
  else generic_boot_init_secondary cfg a0

/-- The bring-up of several secondary cores, one after the other, on the shared state; a
core that halts does not stop the others. -/
def secondary_bringups (cfg : Config) : List (Nat × Nat) → State → State
  | [], s => s
  | a :: rest, s => secondary_bringups cfg rest (secondary_entry cfg a.1 a.2 s).state

/-- The length `__pageable_part_end - __pageable_part_start` of the staged pageable part, as
the second copy of `init_runtime` computes it. -/
def pageable_part_size (cfg : Config) (L : Layout) : Nat :=
  wsub cfg.bits L.pageable_part_end L.pageable_part_start

/-- A computation only appends to the log, and if it has logged a call of `init_teecore`
that did not return `TEE_SUCCESS`, it has halted right after that call. -/
structure TeecoreGuard {α : Type} (x : Boot α) : Prop where
  out : ∀ s, ∃ t, (x s).state.trace = s.trace ++ t ∧
    ∀ res, Event.init_teecore res ∈ t → res ≠ TEE_SUCCESS →
      (x s).outcome = Outcome.halt Halt.teecore_failed

/-- Every halt of a computation satisfies `P`. -/
structure HaltsWith {α : Type} (P : Halt → Prop) (x : Boot α) : Prop where
  out : ∀ s h, (x s).outcome = Outcome.halt h → P h

/-! ## Sample inputs -/

/-- A 32-bit build with pager, without ARM Trusted Firmware. -/
def sampleConfig : Config :=
  { bits := 32, CFG_WITH_PAGER := true, CFG_WITH_ARM_TRUSTED_FW := false, CFG_WITH_VFP := true,
    ARM64 := false, CFG_TEE_RAM_START := 0x0e100000, CFG_TEE_RAM_VA_SIZE := 0x100000,
    TZSRAM_SIZE := 0x40000, TEE_PAGER_AREA_RO := 1, TEE_PAGER_AREA_X := 4,
    CPSR_MODE_SVC := 0x13, CPSR_I := 0x80, NSACR_CP10 := 0x400, NSACR_CP11 := 0x800,
    CPACR_ASEDIS := 0x80000000, CPACR_D32DIS := 0x40000000,
    CPACR_CP10_FULL := 0x300000, CPACR_CP11_FULL := 0xc00000 }

/-- An image of three pages whose init part ends in the middle of its second page. -/
def sampleLayout : Layout :=
  { bss_start := 0x0e101000, bss_end := 0x0e102000, heap1_start := 0x0e102000,
    heap1_end := 0x0e104000, heap2_start := 0x0e104000, heap2_end := 0x0e108000,
    init_start := 0x0e110000, init_size := 0x1800, text_init_start := 0x0e110000,
    pageable_start := 0x0e110000, pageable_end := 0x0e113000,
    pageable_part_start := 0x0e111800, pageable_part_end := 0x0e113000,
    tmp_hashes_start := 0x0e111800, tmp_hashes_size := 96 }

/-- Collaborators that always succeed; the tables have 4 KiB pages below 1 MiB sections. -/
def sampleEnv : Env :=
  { malloc := fun _ => 0x0e102000,
    teecore_init_ta_ram := { lo := 0x0f000000, hi := 0x0f100000, shift := 12, entries := [] },
    tee_mm_alloc := fun p n => some { base := p.lo, size := n },
    hash_sha256_check := fun _ _ => 0,
    core_mmu_find_table := fun _ l =>
      if l = UINT_MAX then some { level := 2, shift := 12 } else some { level := 1, shift := 20 },
    tee_pager_add_area := fun _ _ _ _ => true,
    init_teecore := 0 }

/-- A state before bring-up; the byte at address `a` is `a % 251`. -/
def sampleState : State :=
  { mem := fun a => a % 251, tee_mm_sec_ddr := none, tee_mm_vcore := none,
    nsec_ctx := { mon_lr := 0, mon_spsr := 0 }, cpacr := 0, nsacr := 0, trace := [] }

/-- The address at which the boot loader staged the pageable part in the sample runs. -/
def samplePageablePart : Nat := 0x0e300000

/-- A layout whose init part fills the one page of the pageable image and whose staged
pageable part has one more byte. -/
def overlongLayout : Layout :=
  { sampleLayout with
    init_size := 0x1000, pageable_end := 0x0e111000, pageable_part_start := 0x0e111000,
    pageable_part_end := 0x0e111001, tmp_hashes_size := 32 }

/-- A layout whose pageable image starts one page after `__text_init_start`. -/
def gapLayout : Layout :=
  { sampleLayout with
    init_start := 0x0e111000, pageable_start := 0x0e111000, pageable_end := 0x0e114000,
    pageable_part_start := 0x0e112800, pageable_part_end := 0x0e114000 }

/-- A build whose secure RAM window `[0xfff00000, 0x100000000)` ends at the top of the
32-bit address space. -/
def topOfMemoryConfig : Config :=
  { sampleConfig with CFG_TEE_RAM_START := 0xfff00000, CFG_TEE_RAM_VA_SIZE := 0x100000 }

/-- A layout whose init part of `0x1800` bytes is longer than the pageable image of one
page. -/
def initBeyondLayout : Layout :=
  { sampleLayout with
    pageable_end := 0x0e111000, pageable_part_start := 0x0e111800,
    pageable_part_end := 0x0e111800, tmp_hashes_size := 32 }

/-- A layout whose init part of `0x1001` bytes starts in the middle of a page. -/
def unalignedLayout : Layout :=
  { sampleLayout with init_start := 0x0e110800, init_size := 0x1001 }

/-- A layout whose pageable image has a single byte, with a table of one digest. -/
def oddLayout : Layout :=
  { sampleLayout with pageable_end := 0x0e110001, tmp_hashes_size := 32 }

/-- Collaborators as in `sampleEnv`, except that the hashing primitive rejects the page whose
digest starts with the byte `68`; in the sample run this is the second page of the store. -/
def corruptPageEnv : Env :=
  { sampleEnv with
    hash_sha256_check := fun hash _ => if hash.head? = some 68 then 0xffff0006 else 0 }

/-- A build whose secure RAM window at `0x0e100000` has size zero. -/
def emptyWindowConfig : Config := { sampleConfig with CFG_TEE_RAM_VA_SIZE := 0 }

/-! ## Sequencing and the log -/

theorem bind_run {α β : Type} (x : Boot α) (f : α → Boot β) (s : State) :
    (x >>= f) s = match (x s).outcome with
      | Outcome.done a => f a (x s).state
      | Outcome.halt h => ⟨(x s).state, Outcome.halt h⟩ := rfl

theorem bind_run_done {α β : Type} {x : Boot α} {f : α → Boot β} {s : State} {a : α}
    (h : (x s).outcome = Outcome.done a) : (x >>= f) s = f a (x s).state := by
  rw [bind_run, h]

theorem bind_run_halt {α β : Type} {x : Boot α} {f : α → Boot β} {s : State} {e : Halt}
    (h : (x s).outcome = Outcome.halt e) : (x >>= f) s = ⟨(x s).state, Outcome.halt e⟩ := by
  rw [bind_run, h]

theorem bind_done {α β : Type} {x : Boot α} {f : α → Boot β} {s : State} {b : β}
    (h : ((x >>= f) s).outcome = Outcome.done b) :
    ∃ a, (x s).outcome = Outcome.done a ∧ (x >>= f) s = f a (x s).state := by
  cases hx : (x s).outcome with
  | done a => exact ⟨a, rfl, bind_run_done hx⟩
  | halt e => rw [bind_run_halt hx] at h; simp at h

theorem Emits.mono {α : Type} {P Q : Event → Prop} {x : Boot α} (h : Emits P x)
    (hPQ : ∀ e, P e → Q e) : Emits Q x := by
  refine ⟨fun s => ?_⟩
  obtain ⟨t, ht, hP⟩ := h.out s
  exact ⟨t, ht, fun e he => hPQ e (hP e he)⟩

theorem Emits.pure {α : Type} (P : Event → Prop) (a : α) : Emits P (Boot.pure a) :=
  ⟨fun s => ⟨[], by simp [Boot.pure], by simp⟩⟩

theorem Emits.halt {α : Type} (P : Event → Prop) (h : Halt) : Emits P (halt h : Boot α) :=
  ⟨fun s => ⟨[], by simp [GenericBoot.halt], by simp⟩⟩

theorem Emits.emit {P : Event → Prop} {e : Event} (h : P e) : Emits P (emit e) :=
  ⟨fun s => ⟨[e], by simp [GenericBoot.emit], by simpa using h⟩⟩

theorem Emits.getState (P : Event → Prop) : Emits P getState :=
  ⟨fun s => ⟨[], by simp [GenericBoot.getState], by simp⟩⟩

theorem Emits.modifyState {P : Event → Prop} {f : State → State}
    (hf : ∀ s, (f s).trace = s.trace) : Emits P (modifyState f) :=
  ⟨fun s => ⟨[], by simp [GenericBoot.modifyState, hf], by simp⟩⟩

theorem Emits.bind {α β : Type} {P : Event → Prop} {x : Boot α} {f : α → Boot β}
    (hx : Emits P x) (hf : ∀ a, Emits P (f a)) : Emits P (x >>= f) := by
  refine ⟨fun s => ?_⟩
  obtain ⟨t, ht, hP⟩ := hx.out s
  rw [bind_run]
  cases hxs : (x s).outcome with
  | done a =>
    obtain ⟨t', ht', hP'⟩ := (hf a).out (x s).state
    refine ⟨t ++ t', ?_, ?_⟩
    · simp only [ht', ht, List.append_assoc]
    · intro e he
      rcases List.mem_append.1 he with h | h
      · exact hP e h
      · exact hP' e h
  | halt h => exact ⟨t, ht, hP⟩

theorem Emits.memcpy {P : Event → Prop} {dst src n : Nat} (h : P (Event.memcpy dst src n)) :
    Emits P (memcpy dst src n) :=
  ⟨fun s => ⟨[Event.memcpy dst src n], by simp [GenericBoot.memcpy], by simpa using h⟩⟩

theorem Emits.memset {P : Event → Prop} {dst val n : Nat} (h : P (Event.memset dst val n)) :
    Emits P (memset dst val n) :=
  ⟨fun s => ⟨[Event.memset dst val n], by simp [GenericBoot.memset], by simpa using h⟩⟩

theorem Emits.TEE_ASSERT (P : Event → Prop) (c : Bool) (h : Halt) : Emits P (TEE_ASSERT c h) := by
  unfold GenericBoot.TEE_ASSERT
  split
  · exact Emits.pure P ()
  · exact Emits.halt P h

/-! ## What each function logs -/

theorem init_sec_mon_emits (cfg : Config) (n : Nat) :
    Emits (fun e => e.isPerCore = true) (init_sec_mon cfg n) := by
  unfold init_sec_mon
  repeat' first
    | (apply Emits.emit; rfl)
    | apply Emits.pure
    | apply Emits.halt
    | (apply Emits.modifyState; exact fun _ => rfl)
    | apply Emits.bind
    | split
    | intro _

theorem init_vfp_sec_emits (cfg : Config) :
    Emits (fun e => e.isPerCore = true) (init_vfp_sec cfg) := by
  unfold init_vfp_sec
  repeat' first
    | (apply Emits.emit; rfl)
    | apply Emits.pure
    | (apply Emits.modifyState; exact fun _ => rfl)
    | apply Emits.bind
    | split
    | intro _

theorem init_vfp_nsec_emits (cfg : Config) :
    Emits (fun e => e.isPerCore = true) (init_vfp_nsec cfg) := by
  unfold init_vfp_nsec
  repeat' first
    | (apply Emits.emit; rfl)
    | apply Emits.pure
    | (apply Emits.modifyState; exact fun _ => rfl)
    | apply Emits.bind
    | split
    | intro _

theorem init_secondary_helper_emits (cfg : Config) (n : Nat) :
    Emits (fun e => e.isPerCore = true) (init_secondary_helper cfg n) := by
  unfold init_secondary_helper
  repeat' first
    | exact init_sec_mon_emits cfg _
    | exact init_vfp_sec_emits cfg
    | exact init_vfp_nsec_emits cfg
    | (apply Emits.emit; rfl)
    | apply Emits.bind
    | intro _

theorem check_hash_size_emits (w page digest psz declared : Nat) :
    Emits (fun e => e.isQuiet = true) (check_hash_size w page digest psz declared) := by
  unfold check_hash_size
  repeat' first
    | apply Emits.TEE_ASSERT
    | apply Emits.pure
    | apply Emits.bind
    | intro _

theorem load_hashes_emits (cfg : Config) (env : Env) (L : Layout) (hash_size : Nat) :
    Emits (fun e => e.isQuiet = true) (load_hashes cfg env L hash_size) := by
  unfold load_hashes
  repeat' first
    | apply Emits.TEE_ASSERT
    | (apply Emits.emit; rfl)
    | (apply Emits.memcpy; rfl)
    | (apply Emits.memset; rfl)
    | apply Emits.pure
    | apply Emits.bind
    | intro _

theorem relocate_emits (cfg : Config) (env : Env) (L : Layout) (pp : Nat) :
    Emits (fun e => e.isQuiet = true) (relocate cfg env L pp) := by
  unfold relocate teecore_init_ta_ram tee_mm_alloc_sec_ddr
  repeat' first
    | (apply Emits.emit; rfl)
    | (apply Emits.memcpy; rfl)
    | apply Emits.pure
    | apply Emits.halt
    | apply Emits.getState
    | (apply Emits.modifyState; exact fun _ => rfl)
    | apply Emits.bind
    | split
    | intro _

theorem init_runtime_relocated_emits (cfg : Config) (env : Env) (L : Layout) (pp : Nat) :
    Emits (fun e => e.isQuiet = true) (init_runtime_relocated cfg env L pp) := by
  unfold init_runtime_relocated
  repeat' first
    | exact check_hash_size_emits _ _ _ _ _
    | exact load_hashes_emits _ _ _ _
    | exact relocate_emits _ _ _ _
    | apply Emits.pure
    | apply Emits.bind
    | intro _

theorem backfill_init_emits (cfg : Config) (L : Layout) (store : Nat) :
    Emits (fun e => e.isQuiet = true) (backfill_init cfg L store) := by
  unfold backfill_init
  repeat' first
    | (apply Emits.emit; rfl)
    | (apply Emits.memcpy; rfl)
    | apply Emits.pure
    | apply Emits.bind
    | split
    | intro _

theorem get_block_size_emits (cfg : Config) (env : Env) :
    Emits (fun e => e.isQuiet = true) (get_block_size cfg env) := by
  unfold get_block_size core_mmu_find_table
  repeat' first
    | (apply Emits.emit; rfl)
    | apply Emits.pure
    | apply Emits.halt
    | apply Emits.bind
    | split
    | intro _

theorem tee_mm_init_vcore_emits (lo hi shift flags : Nat) :
    Emits (fun e => e.isQuiet = true) (tee_mm_init_vcore lo hi shift flags) := by
  unfold tee_mm_init_vcore
  repeat' first
    | (apply Emits.emit; rfl)
    | apply Emits.pure
    | (apply Emits.modifyState; exact fun _ => rfl)
    | apply Emits.bind
    | split
    | intro _

theorem tee_mm_alloc2_vcore_emits (base size : Nat) :
    Emits (fun e => e.isQuiet = true) (tee_mm_alloc2_vcore base size) := by
  unfold tee_mm_alloc2_vcore
  repeat' first
    | (apply Emits.emit; rfl)
    | apply Emits.pure
    | apply Emits.getState
    | (apply Emits.modifyState; exact fun _ => rfl)
    | apply Emits.bind
    | split
    | intro _

theorem vcore_bounds_emits : Emits (fun e => e.isQuiet = true) vcore_bounds := by
  unfold vcore_bounds
  repeat' first
    | apply Emits.pure
    | apply Emits.getState
    | apply Emits.bind
    | split
    | intro _

theorem reserve_vcore_emits (cfg : Config) (L : Layout) :
    Emits (fun e => e.isQuiet = true) (reserve_vcore cfg L) := by
  unfold reserve_vcore
  repeat' first
    | exact tee_mm_alloc2_vcore_emits _ _
    | exact vcore_bounds_emits
    | (apply Emits.emit; rfl)
    | apply Emits.pure
    | apply Emits.halt
    | apply Emits.bind
    | split
    | intro _

theorem build_vcore_emits (cfg : Config) (env : Env) (L : Layout) :
    Emits (fun e => e.isQuiet = true) (build_vcore cfg env L) := by
  unfold build_vcore
  repeat' first
    | exact get_block_size_emits _ _
    | exact tee_mm_init_vcore_emits _ _ _ _
    | exact reserve_vcore_emits _ _
    | apply Emits.halt
    | apply Emits.bind
    | split
    | intro _

theorem register_pager_emits (cfg : Config) (env : Env) (L : Layout) (mm : tee_mm_entry)
    (store hashes : Nat) :
    Emits (fun e => e.isStep = false ∧ e.isHashCheck = false)
      (register_pager cfg env L mm store hashes) := by
  unfold register_pager tee_pager_add_area
  repeat' first
    | (apply Emits.emit; exact ⟨rfl, rfl⟩)
    | apply Emits.pure
    | apply Emits.halt
    | apply Emits.bind
    | split
    | intro _

theorem check_pages_emits (w : Nat) (env : Env) (hashes store psz fuel : Nat) :
    ∀ n, Emits (fun e => e.isStep = false ∧ e.isPagerRegistration = false)
      (check_pages w env hashes store psz fuel n) := by
  induction fuel with
  | zero => intro n; unfold check_pages; apply Emits.halt
  | succ fuel ih =>
    intro n
    unfold check_pages hash_sha256_check
    repeat' first
      | exact ih _
      | (apply Emits.emit; exact ⟨rfl, rfl⟩)
      | apply Emits.pure
      | apply Emits.halt
      | apply Emits.getState
      | apply Emits.bind
      | split
      | intro _

/-! ## Machine arithmetic without wrap-around -/

theorem two_pow_le_of_le {k w : Nat} (h : k ≤ w) : 2 ^ k ≤ 2 ^ w :=
  Nat.pow_le_pow_right (by norm_num) h

theorem wadd_of_lt {w a b : Nat} (h : a + b < 2 ^ w) : wadd w a b = a + b :=
  Nat.mod_eq_of_lt h

theorem wmul_of_lt {w a b : Nat} (h : a * b < 2 ^ w) : wmul w a b = a * b :=
  Nat.mod_eq_of_lt h

theorem wsub_lt (w a b : Nat) : wsub w a b < 2 ^ w :=
  Nat.mod_lt _ (Nat.two_pow_pos w)

theorem wsub_of_le {w a b : Nat} (hab : b ≤ a) (ha : a < 2 ^ w) : wsub w a b = a - b := by
  unfold wsub
  have hb : b < 2 ^ w := lt_of_le_of_lt hab ha
  rw [Nat.mod_eq_of_lt ha, Nat.mod_eq_of_lt hb]
  have h1 : a + (2 ^ w - b) = (a - b) + 2 ^ w := by omega
  rw [h1, Nat.add_mod_right]
  exact Nat.mod_eq_of_lt (by omega)

theorem wsub_of_lt {w a b : Nat} (hab : a < b) (hb : b < 2 ^ w) :
    wsub w a b = a + 2 ^ w - b := by
  unfold wsub
  have ha : a < 2 ^ w := lt_trans hab hb
  rw [Nat.mod_eq_of_lt ha, Nat.mod_eq_of_lt hb]
  have h1 : a + (2 ^ w - b) = a + 2 ^ w - b := by omega
  rw [h1]
  exact Nat.mod_eq_of_lt (by omega)

theorem wsub_one_two_pow {w k : Nat} (hk : k ≤ w) : wsub w (2 ^ k) 1 = 2 ^ k - 1 := by
  have hp : 0 < 2 ^ k := Nat.two_pow_pos k
  rcases Nat.eq_or_lt_of_le hk with h | h
  · subst h
    unfold wsub
    rcases Nat.eq_zero_or_pos k with h0 | h0
    · subst h0; simp
    · have h1 : 1 < 2 ^ k := Nat.one_lt_two_pow (by omega)
      rw [Nat.mod_self, Nat.mod_eq_of_lt h1, Nat.zero_add]
      exact Nat.mod_eq_of_lt (by omega)
  · have hlt : 2 ^ k < 2 ^ w := Nat.pow_lt_pow_right (by norm_num) h
    exact wsub_of_le hp hlt

theorem land_wnot_mask (w k x : Nat) (hk : k ≤ w) (hx : x < 2 ^ w) :
    x &&& (2 ^ w - 1 - (2 ^ k - 1)) = x / 2 ^ k * 2 ^ k := by
  apply Nat.eq_of_testBit_eq
  intro i
  have h1 : 2 ^ w - 1 - (2 ^ k - 1) = 2 ^ k * (2 ^ (w - k) - 1) := by
    have h2 : 2 ^ w = 2 ^ k * 2 ^ (w - k) := by rw [← pow_add]; congr 1; omega
    have hp : 0 < 2 ^ k := Nat.two_pow_pos k
    have hq : 0 < 2 ^ (w - k) := Nat.two_pow_pos _
    rw [h2, Nat.mul_sub]
    omega
  rw [h1, Nat.testBit_and, Nat.mul_comm (x / 2 ^ k), Nat.testBit_mul_pow_two,
    Nat.testBit_mul_pow_two, Nat.testBit_two_pow_sub_one, ← Nat.shiftRight_eq_div_pow,
    Nat.testBit_shiftRight]
  by_cases hik : k ≤ i
  · have e : k + (i - k) = i := by omega
    rw [e]
    by_cases hiw : i < w
    · have h3 : i - k < w - k := by omega
      simp [h3, hik]
    · have hxi : x.testBit i = false :=
        Nat.testBit_lt_two_pow (lt_of_lt_of_le hx (two_pow_le_of_le (by omega)))
      simp [hxi]
  · simp [hik]

theorem wnot_mask {w k : Nat} (hk : k ≤ w) :
    wnot w (2 ^ k - 1) = 2 ^ w - 1 - (2 ^ k - 1) := by
  unfold wnot
  have hp : 0 < 2 ^ k := Nat.two_pow_pos k
  have hle : 2 ^ k ≤ 2 ^ w := two_pow_le_of_le hk
  rw [Nat.mod_eq_of_lt (by omega)]

theorem ROUNDDOWN_eq {w k v : Nat} (hk : k ≤ w) (hv : v < 2 ^ w) :
    ROUNDDOWN w v (2 ^ k) = v / 2 ^ k * 2 ^ k := by
  unfold ROUNDDOWN
  rw [wsub_one_two_pow hk, wnot_mask hk, land_wnot_mask w k v hk hv]

theorem ROUNDUP_eq {w k v : Nat} (hk : k ≤ w) (hv : v + (2 ^ k - 1) < 2 ^ w) :
    ROUNDUP w v (2 ^ k) = (v + (2 ^ k - 1)) / 2 ^ k * 2 ^ k := by
  unfold ROUNDUP
  rw [wsub_one_two_pow hk, wnot_mask hk, wadd_of_lt hv, land_wnot_mask w k _ hk hv]

theorem ROUNDUP_lt (w v size : Nat) : ROUNDUP w v size < 2 ^ w := by
  unfold ROUNDUP wnot
  have hp : 0 < 2 ^ w := Nat.two_pow_pos w
  exact lt_of_le_of_lt Nat.and_le_right (by omega)

theorem roundup_eq (v size : Nat) (hs : 0 < size) :
    roundup v size = (v + (size - 1)) / size * size := by
  unfold roundup
  rw [Nat.add_sub_assoc hs]

theorem roundup_mod (v size : Nat) : roundup v size % size = 0 := by
  unfold roundup
  exact Nat.mul_mod_left _ _

theorem roundup_le_of_le_of_mod {v size b : Nat} (hs : 0 < size) (hvb : v ≤ b)
    (hb : b % size = 0) : roundup v size ≤ b := by
  rw [roundup_eq v size hs]
  obtain ⟨c, rfl⟩ := Nat.dvd_of_mod_eq_zero hb
  rw [Nat.mul_comm size c]
  apply Nat.mul_le_mul_right
  rw [Nat.div_le_iff_le_mul_add_pred hs]
  omega

theorem roundup_page_of_mod {v : Nat} (h : v % 4096 ≠ 0) :
    roundup v 4096 = v + (4096 - v % 4096) := by
  unfold roundup
  omega

/-- On a word of at least 12 bits, the macro on a page size is the mathematical round-up,
as long as `v + 4095` fits the word. -/
theorem ROUNDUP_page {w v : Nat} (hw : 12 ≤ w) (hv : v + 4095 < 2 ^ w) :
    ROUNDUP w v SMALL_PAGE_SIZE = roundup v 4096 := by
  have h := @ROUNDUP_eq w 12 v hw (by simpa using hv)
  simp only [SMALL_PAGE_SIZE, roundup]
  norm_num at h ⊢
  exact h

theorem ROUNDUP_zero_small (w : Nat) (hw : w < 12) : ROUNDUP w 0 4096 = 0 := by
  interval_cases w <;> decide

theorem two_pow_lt_page {w : Nat} (hw : w < 12) : 2 ^ w < 4096 := by
  have : 2 ^ w < 2 ^ 12 := Nat.pow_lt_pow_right (by norm_num) hw
  simpa using this

theorem twelve_le_of_page_le {w : Nat} (h : 4096 ≤ 2 ^ w) : 12 ≤ w := by
  by_contra hlt
  have := two_pow_lt_page (w := w) (by omega)
  omega

/-! ## The verification loop -/

theorem hash_sha256_check_run (env : Env) (hash page len : Nat) (s : State) :
    hash_sha256_check env hash page len s =
      ⟨{ s with trace := s.trace ++ [Event.hash_sha256_check hash page len
          (env.hash_sha256_check (readBytes s.mem hash TEE_SHA256_HASH_SIZE)
            (readBytes s.mem page len))] },
        Outcome.done (env.hash_sha256_check (readBytes s.mem hash TEE_SHA256_HASH_SIZE)
          (readBytes s.mem page len))⟩ := rfl

/-- The loop from index `n` on: either every page from `n` up to `k` verifies, the loop ends
normally and has logged these checks in ascending order, or it halts at the first page that
does not verify, having logged the checks up to that page. Only the log changes. -/
theorem check_pages_run (w : Nat) (env : Env) (hashes store psz k : Nat)
    (hk : psz = k * 4096) (hw : psz < 2 ^ w) :
    ∀ fuel n s, n ≤ k → k - n < fuel →
      ∃ t, (check_pages w env hashes store psz fuel n s).state = { s with trace := s.trace ++ t } ∧
        (((check_pages w env hashes store psz fuel n s).outcome = Outcome.done () ∧
            t = (List.range' n (k - n)).map (pageCheckEvent env s.mem hashes store) ∧
            ∀ i, n ≤ i → i < k → pageCheck env s.mem hashes store i = TEE_SUCCESS) ∨
         (∃ j, n ≤ j ∧ j < k ∧
            (check_pages w env hashes store psz fuel n s).outcome = Outcome.halt (Halt.hash_failed j) ∧
            t = (List.range' n (j - n)).map (pageCheckEvent env s.mem hashes store)
              ++ [pageCheckEvent env s.mem hashes store j] ∧
            pageCheck env s.mem hashes store j ≠ TEE_SUCCESS ∧
            ∀ i, n ≤ i → i < j → pageCheck env s.mem hashes store i = TEE_SUCCESS)) := by
  intro fuel
  induction fuel with
  | zero => intro n s _ h; omega
  | succ fuel ih =>
    intro n s hn hf
    have hnk : n * 4096 ≤ psz := by rw [hk]; exact Nat.mul_le_mul_right _ hn
    have hmul : wmul w n SMALL_PAGE_SIZE = n * 4096 :=
      wmul_of_lt (lt_of_le_of_lt hnk hw)
    unfold check_pages
    rw [hmul]
    by_cases hlt : n * 4096 < psz
    · have hn' : n < k := by
        rw [hk] at hlt
        exact Nat.lt_of_mul_lt_mul_right hlt
      have hadd : wadd w n 1 = n + 1 := by
        apply wadd_of_lt
        have : n + 1 ≤ k * 4096 := by omega
        omega
      rw [if_pos hlt, bind_run, hash_sha256_check_run]
      simp only []
      by_cases hres : pageCheck env s.mem hashes store n = TEE_SUCCESS
      · have hres' : env.hash_sha256_check
            (readBytes s.mem (hashes + n * TEE_SHA256_HASH_SIZE) TEE_SHA256_HASH_SIZE)
            (readBytes s.mem (store + n * SMALL_PAGE_SIZE) SMALL_PAGE_SIZE) = TEE_SUCCESS := hres
        rw [hres', if_neg (by simp), hadd]
        obtain ⟨t, hst, hcase⟩ := ih (n + 1)
          { s with trace := s.trace ++ [Event.hash_sha256_check
            (hashes + n * TEE_SHA256_HASH_SIZE) (store + n * SMALL_PAGE_SIZE) SMALL_PAGE_SIZE
            TEE_SUCCESS] } (by omega) (by omega)
        have hev : Event.hash_sha256_check (hashes + n * TEE_SHA256_HASH_SIZE)
            (store + n * SMALL_PAGE_SIZE) SMALL_PAGE_SIZE TEE_SUCCESS
              = pageCheckEvent env s.mem hashes store n := by
          unfold pageCheckEvent
          rw [hres]
          rfl
        refine ⟨pageCheckEvent env s.mem hashes store n :: t, ?_, ?_⟩
        · rw [hst, hev]
          simp
        · have hrange : ∀ m, n < m → List.range' n (m - n) = n :: List.range' (n + 1) (m - (n + 1)) := by
            intro m hm
            have : m - n = (m - (n + 1)) + 1 := by omega
            rw [this, List.range'_succ]
          rcases hcase with ⟨hout, ht, hall⟩ | ⟨j, hj1, hj2, hout, ht, hbad, hall⟩
          · left
            refine ⟨hout, ?_, ?_⟩
            · rw [hrange k hn', ht]; rfl
            · intro i hi1 hi2
              rcases Nat.eq_or_lt_of_le hi1 with h | h
              · rw [← h]; exact hres
              · exact hall i h hi2
          · right
            refine ⟨j, by omega, hj2, hout, ?_, hbad, ?_⟩
            · rw [hrange j (by omega), ht]; rfl
            · intro i hi1 hi2
              rcases Nat.eq_or_lt_of_le hi1 with h | h
              · rw [← h]; exact hres
              · exact hall i h hi2
      · have hres' : env.hash_sha256_check
            (readBytes s.mem (hashes + n * TEE_SHA256_HASH_SIZE) TEE_SHA256_HASH_SIZE)
            (readBytes s.mem (store + n * SMALL_PAGE_SIZE) SMALL_PAGE_SIZE) ≠ TEE_SUCCESS := hres
        rw [if_pos hres']
        refine ⟨[pageCheckEvent env s.mem hashes store n], rfl, Or.inr ⟨n, le_refl n, hn', rfl, ?_, hres, ?_⟩⟩
        · simp
        · intro i hi1 hi2; omega
    · have hnk' : n = k := by
        rw [hk] at hlt
        have : ¬ n < k := fun h => hlt (Nat.mul_lt_mul_of_pos_right h (by norm_num))
        omega
      rw [if_neg hlt]
      refine ⟨[], by simp [Boot.pure], Or.inl ⟨rfl, by simp [hnk'], ?_⟩⟩
      intro i hi1 hi2; omega

/-! ## The structure of `init_runtime` -/

theorem bind_assoc' {α β γ : Type} (x : Boot α) (f : α → Boot β) (g : β → Boot γ) :
    (x >>= f) >>= g = x >>= fun a => f a >>= g := by
  funext s
  simp only [bind_run]
  cases (x s).outcome <;> rfl

theorem pure_bind' {α β : Type} (a : α) (f : α → Boot β) : Boot.pure a >>= f = f a := rfl

/-- What `init_runtime` does after the verification loop. -/
theorem init_runtime_pager_eq (cfg : Config) (env : Env) (L : Layout) (pp : Nat) :
    init_runtime_pager cfg env L pp =
      init_runtime_relocated cfg env L pp >>= fun r =>
        check_pages cfg.bits env r.1 r.2 (pageable_size cfg L) (pageable_size cfg L + 1) 0
          >>= fun _ => backfill_init cfg L r.2 >>= fun _ =>
            build_vcore cfg env L >>= fun mm => register_pager cfg env L mm r.2 r.1 := by
  unfold init_runtime_pager init_runtime_image
  simp only [bind_assoc', pure_bind']

theorem after_loop_emits (cfg : Config) (env : Env) (L : Layout) (r : Nat × Nat) :
    Emits (fun e => e.isStep = false ∧ e.isHashCheck = false)
      (backfill_init cfg L r.2 >>= fun _ =>
        build_vcore cfg env L >>= fun mm => register_pager cfg env L mm r.2 r.1) := by
  have hq : ∀ e : Event, e.isQuiet = true → e.isStep = false ∧ e.isHashCheck = false := by
    intro e he
    simp only [Event.isQuiet, Bool.and_eq_true, Bool.not_eq_true'] at he
    exact ⟨he.1.1, he.2⟩
  apply Emits.bind ((backfill_init_emits cfg L r.2).mono hq)
  intro _
  apply Emits.bind ((build_vcore_emits cfg env L).mono hq)
  intro mm
  exact register_pager_emits cfg env L mm r.2 r.1

theorem check_hash_size_done {w page digest psz declared : Nat} {s : State} {hs : Nat}
    (h : (check_hash_size w page digest psz declared s).outcome = Outcome.done hs) :
    psz % page = 0 ∧ wmul w (psz / page) digest = declared % 2 ^ w ∧
      hs = wmul w (psz / page) digest := by
  unfold check_hash_size TEE_ASSERT at h
  simp only [bind_run] at h
  by_cases h1 : psz % page = 0
  · by_cases h2 : wmul w (psz / page) digest = declared % 2 ^ w
    · simp [h1, h2, Boot.pure] at h
      exact ⟨h1, h2, by rw [h2]; exact h.symm⟩
    · simp [h1, h2, Boot.pure, halt] at h
  · simp [h1, Boot.pure, halt] at h

theorem init_runtime_relocated_done {cfg : Config} {env : Env} {L : Layout} {pp : Nat}
    {s : State} {r : Nat × Nat}
    (h : (init_runtime_relocated cfg env L pp s).outcome = Outcome.done r) :
    pageable_size cfg L % 4096 = 0 := by
  unfold init_runtime_relocated at h
  obtain ⟨hs, h1, _⟩ := bind_done h
  exact (check_hash_size_done h1).1

theorem pageable_size_lt (cfg : Config) (L : Layout) : pageable_size cfg L < 2 ^ cfg.bits :=
  wsub_lt _ _ _

theorem filter_eq_nil_of_forall {P : Event → Bool} {t : List Event}
    (h : ∀ e ∈ t, P e = false) : t.filter P = [] := by
  rw [List.filter_eq_nil_iff]
  intro e he
  simp [h e he]

theorem filter_eq_self_of_forall {P : Event → Bool} {t : List Event}
    (h : ∀ e ∈ t, P e = true) : t.filter P = t := by
  rw [List.filter_eq_self]
  exact h

/-! ## Totality: the loop bound is never exhausted -/

theorem haltsWith_pure {α : Type} (P : Halt → Prop) (a : α) : HaltsWith P (Boot.pure a) :=
  ⟨fun s h hh => by simp [Boot.pure] at hh⟩

theorem haltsWith_halt {α : Type} {P : Halt → Prop} {h : Halt} (hP : P h) :
    HaltsWith P (halt h : Boot α) :=
  ⟨fun s h' hh => by
    simp only [GenericBoot.halt, Outcome.halt.injEq] at hh
    rw [← hh]; exact hP⟩

theorem haltsWith_emit (P : Halt → Prop) (e : Event) : HaltsWith P (emit e) :=
  ⟨fun s h hh => by simp [GenericBoot.emit] at hh⟩

theorem haltsWith_getState (P : Halt → Prop) : HaltsWith P getState :=
  ⟨fun s h hh => by simp [GenericBoot.getState] at hh⟩

theorem haltsWith_modifyState (P : Halt → Prop) (f : State → State) :
    HaltsWith P (modifyState f) :=
  ⟨fun s h hh => by simp [GenericBoot.modifyState] at hh⟩

theorem haltsWith_memcpy (P : Halt → Prop) (dst src n : Nat) : HaltsWith P (memcpy dst src n) :=
  ⟨fun s h hh => by simp [GenericBoot.memcpy] at hh⟩

theorem haltsWith_memset (P : Halt → Prop) (dst val n : Nat) : HaltsWith P (memset dst val n) :=
  ⟨fun s h hh => by simp [GenericBoot.memset] at hh⟩

theorem haltsWith_TEE_ASSERT {P : Halt → Prop} {h : Halt} (c : Bool) (hP : P h) :
    HaltsWith P (TEE_ASSERT c h) := by
  unfold GenericBoot.TEE_ASSERT
  split
  · exact haltsWith_pure P ()
  · exact haltsWith_halt hP

theorem haltsWith_bind {α β : Type} {P : Halt → Prop} {x : Boot α} {f : α → Boot β}
    (hx : HaltsWith P x) (hf : ∀ a, HaltsWith P (f a)) : HaltsWith P (x >>= f) := by
  refine ⟨fun s h hh => ?_⟩
  cases hxs : (x s).outcome with
  | done a =>
    rw [bind_run_done hxs] at hh
    exact (hf a).out _ h hh
  | halt e =>
    rw [bind_run_halt hxs] at hh
    simp only [Outcome.halt.injEq] at hh
    rw [← hh]
    exact hx.out s e hxs

theorem init_runtime_relocated_halts (cfg : Config) (env : Env) (L : Layout) (pp : Nat) :
    HaltsWith (fun h => h ≠ Halt.out_of_fuel) (init_runtime_relocated cfg env L pp) := by
  unfold init_runtime_relocated check_hash_size load_hashes relocate teecore_init_ta_ram
    tee_mm_alloc_sec_ddr
  repeat' first
    | (apply haltsWith_TEE_ASSERT; simp)
    | (apply haltsWith_halt; simp)
    | apply haltsWith_pure
    | apply haltsWith_emit
    | apply haltsWith_getState
    | apply haltsWith_modifyState
    | apply haltsWith_memcpy
    | apply haltsWith_memset
    | apply haltsWith_bind
    | split
    | intro _

theorem after_loop_halts (cfg : Config) (env : Env) (L : Layout) (r : Nat × Nat) :
    HaltsWith (fun h => h ≠ Halt.out_of_fuel)
      (backfill_init cfg L r.2 >>= fun _ =>
        build_vcore cfg env L >>= fun mm => register_pager cfg env L mm r.2 r.1) := by
  unfold backfill_init build_vcore reserve_vcore get_block_size core_mmu_find_table tee_mm_init_vcore
    tee_mm_alloc2_vcore vcore_bounds register_pager tee_pager_add_area
  repeat' first
    | (apply haltsWith_halt; simp)
    | apply haltsWith_pure
    | apply haltsWith_emit
    | apply haltsWith_getState
    | apply haltsWith_modifyState
    | apply haltsWith_memcpy
    | apply haltsWith_bind
    | split
    | intro _

/-- The pager variant of `init_runtime` never stops for lack of loop iterations: each of its
halts is one of the checks of the source. -/
theorem init_runtime_pager_total (cfg : Config) (env : Env) (L : Layout) (pp : Nat) (s : State) :
    (init_runtime_pager cfg env L pp s).outcome ≠ Outcome.halt Halt.out_of_fuel := by
  rw [init_runtime_pager_eq]
  cases hr0 : (init_runtime_relocated cfg env L pp s).outcome with
  | halt e =>
    rw [bind_run_halt hr0]
    have := (init_runtime_relocated_halts cfg env L pp).out s e hr0
    simpa using this
  | done r =>
    rw [bind_run_done hr0]
    have hmod := init_runtime_relocated_done hr0
    have hk : pageable_size cfg L = (pageable_size cfg L / 4096) * 4096 := by omega
    obtain ⟨tl, hst, hcase⟩ := check_pages_run cfg.bits env r.1 r.2 (pageable_size cfg L)
      (pageable_size cfg L / 4096) hk (pageable_size_lt cfg L) (pageable_size cfg L + 1) 0
      (init_runtime_relocated cfg env L pp s).state (Nat.zero_le _) (by omega)
    rcases hcase with ⟨hout, _, _⟩ | ⟨j, _, _, hout, _, _, _⟩
    · rw [bind_run_done hout]
      intro hh
      exact (after_loop_halts cfg env L r).out _ _ hh rfl
    · rw [bind_run_halt hout]
      simp

/-! ## C1: verification before registration -/

/-- C1: the pager variant of `init_runtime` reaches a pager registration
(`tee_pager_add_area`, `tee_pager_add_pages`) only if `hash_sha256_check` succeeded for every
page index `n` below `pageable_size / SMALL_PAGE_SIZE`, each index checked exactly once, in
ascending order, digest `hashes[n*32 ..]` against data `store[n*4096 .. n*4096+4096)`; and if
the check of a page fails, `init_runtime` halts at that page and no pager registration is
ever made. -/
theorem C1_every_page_verified_before_registration (cfg : Config) (env : Env) (L : Layout)
    (pp : Nat) (s : State) :
    ∃ t, (init_runtime_pager cfg env L pp s).state.trace = s.trace ++ t ∧
      ((∃ e ∈ t, e.isPagerRegistration = true) →
        ∃ hashes store,
          (init_runtime_relocated cfg env L pp s).outcome = Outcome.done (hashes, store) ∧
          (∀ n, n < pageable_size cfg L / SMALL_PAGE_SIZE →
            pageCheck env (init_runtime_relocated cfg env L pp s).state.mem hashes store n
              = TEE_SUCCESS) ∧
          t.filter Event.isHashCheck =
            (List.range (pageable_size cfg L / SMALL_PAGE_SIZE)).map (fun n =>
              Event.hash_sha256_check (hashes + n * 32) (store + n * 4096) 4096 TEE_SUCCESS)) ∧
      (∀ hash page len res, Event.hash_sha256_check hash page len res ∈ t → res ≠ TEE_SUCCESS →
        ∃ hashes store n,
          (init_runtime_relocated cfg env L pp s).outcome = Outcome.done (hashes, store) ∧
          n < pageable_size cfg L / SMALL_PAGE_SIZE ∧
          hash = hashes + n * 32 ∧ page = store + n * 4096 ∧ len = 4096 ∧
          res = pageCheck env (init_runtime_relocated cfg env L pp s).state.mem hashes store n ∧
          (init_runtime_pager cfg env L pp s).outcome = Outcome.halt (Halt.hash_failed n) ∧
          ∀ e ∈ t, e.isPagerRegistration = false) := by
  obtain ⟨t0, ht0, hq0⟩ := (init_runtime_relocated_emits cfg env L pp).out s
  have hq0h : ∀ e ∈ t0, e.isHashCheck = false := by
    intro e he
    have := hq0 e he
    simp only [Event.isQuiet, Bool.and_eq_true, Bool.not_eq_true'] at this
    exact this.2
  have hq0p : ∀ e ∈ t0, e.isPagerRegistration = false := by
    intro e he
    have := hq0 e he
    simp only [Event.isQuiet, Bool.and_eq_true, Bool.not_eq_true'] at this
    exact this.1.2
  rw [init_runtime_pager_eq]
  cases hr0 : (init_runtime_relocated cfg env L pp s).outcome with
  | halt e =>
    rw [bind_run_halt hr0]
    refine ⟨t0, ht0, ?_, ?_⟩
    · rintro ⟨e, he, hp⟩
      rw [hq0p e he] at hp
      exact absurd hp (by simp)
    · intro hash page len res hmem _
      have := hq0h _ hmem
      simp [Event.isHashCheck] at this
  | done r =>
    rw [bind_run_done hr0]
    have hmod := init_runtime_relocated_done hr0
    have hk : pageable_size cfg L = (pageable_size cfg L / 4096) * 4096 := by omega
    obtain ⟨tl, hst, hcase⟩ := check_pages_run cfg.bits env r.1 r.2 (pageable_size cfg L)
      (pageable_size cfg L / 4096) hk (pageable_size_lt cfg L) (pageable_size cfg L + 1) 0
      (init_runtime_relocated cfg env L pp s).state (Nat.zero_le _) (by omega)
    rcases hcase with ⟨hout, htl, hall⟩ | ⟨j, _, hj, hout, htl, hbad, hall⟩
    · -- every page verifies
      rw [bind_run_done hout, hst]
      obtain ⟨t3, ht3, hq3⟩ := (after_loop_emits cfg env L r).out
        { (init_runtime_relocated cfg env L pp s).state with
          trace := (init_runtime_relocated cfg env L pp s).state.trace ++ tl }
      have hev : tl = (List.range (pageable_size cfg L / 4096)).map (fun n =>
          Event.hash_sha256_check (r.1 + n * 32) (r.2 + n * 4096) 4096 TEE_SUCCESS) := by
        rw [htl, Nat.sub_zero, ← List.range_eq_range']
        apply List.map_congr_left
        intro n hn
        rw [List.mem_range] at hn
        unfold pageCheckEvent
        rw [hall n (Nat.zero_le _) hn]
      have htlh : ∀ e ∈ tl, e.isHashCheck = true := by
        intro e he
        rw [hev] at he
        obtain ⟨n, _, rfl⟩ := List.mem_map.1 he
        rfl
      have htl0 : ∀ hash page len res, Event.hash_sha256_check hash page len res ∈ tl →
          res = TEE_SUCCESS := by
        intro hash page len res he
        rw [hev] at he
        obtain ⟨n, _, hn⟩ := List.mem_map.1 he
        injection hn with _ _ _ h4
        exact h4.symm
      refine ⟨t0 ++ tl ++ t3, ?_, ?_, ?_⟩
      · rw [ht3]
        simp only [ht0, List.append_assoc]
      · intro _
        refine ⟨r.1, r.2, rfl, ?_, ?_⟩
        · intro n hn
          exact hall n (Nat.zero_le _) hn
        · rw [List.filter_append, List.filter_append, filter_eq_nil_of_forall hq0h,
            filter_eq_nil_of_forall (fun e he => (hq3 e he).2), filter_eq_self_of_forall htlh,
            List.nil_append, List.append_nil]
          exact hev
      · intro hash page len res hmem hres
        exfalso
        rcases List.mem_append.1 hmem with h | h
        · rcases List.mem_append.1 h with h | h
          · have := hq0h _ h
            simp [Event.isHashCheck] at this
          · exact hres (htl0 _ _ _ _ h)
        · have := (hq3 _ h).2
          simp [Event.isHashCheck] at this
    · -- page `j` is the first that does not verify
      rw [bind_run_halt hout, hst]
      have hnp : ∀ e ∈ t0 ++ tl, e.isPagerRegistration = false := by
        intro e he
        rcases List.mem_append.1 he with h | h
        · exact hq0p e h
        · rw [htl] at h
          rcases List.mem_append.1 h with h | h
          · obtain ⟨n, _, rfl⟩ := List.mem_map.1 h
            rfl
          · rw [List.mem_singleton] at h
            rw [h]
            rfl
      refine ⟨t0 ++ tl, ?_, ?_, ?_⟩
      · simp only [ht0, List.append_assoc]
      · rintro ⟨e, he, hp⟩
        rw [hnp e he] at hp
        exact absurd hp (by simp)
      · intro hash page len res hmem hres
        rcases List.mem_append.1 hmem with h | h
        · have := hq0h _ h
          simp [Event.isHashCheck] at this
        · rw [htl] at h
          rcases List.mem_append.1 h with h | h
          · exfalso
            obtain ⟨n, hn, hn'⟩ := List.mem_map.1 h
            rw [List.mem_range'_1] at hn
            unfold pageCheckEvent at hn'
            injection hn' with _ _ _ h4
            rw [hall n hn.1 (by omega)] at h4
            exact hres h4.symm
          · rw [List.mem_singleton] at h
            unfold pageCheckEvent at h
            injection h with h1 h2 h3 h4
            exact ⟨r.1, r.2, j, rfl, hj, h1, h2, h3, h4, rfl, hnp⟩

/-- C1, witness: with a hashing primitive that rejects the second page of the sample store,
`init_runtime` halts at page 1 and no pager registration is made. -/
theorem C1_every_page_verified_before_registration_witness :
    ∃ hashes store n,
      (init_runtime_relocated sampleConfig corruptPageEnv sampleLayout samplePageablePart
        sampleState).outcome = Outcome.done (hashes, store) ∧
      n < pageable_size sampleConfig sampleLayout / SMALL_PAGE_SIZE ∧
      0x0e102000 + 1 * 32 = hashes + n * 32 ∧ 0x0f000000 + 1 * 4096 = store + n * 4096 ∧
      (init_runtime_pager sampleConfig corruptPageEnv sampleLayout samplePageablePart
        sampleState).outcome = Outcome.halt (Halt.hash_failed n) ∧
      ∀ e ∈ (init_runtime_pager sampleConfig corruptPageEnv sampleLayout samplePageablePart
        sampleState).state.trace, e.isPagerRegistration = false := by
  obtain ⟨t, ht, _, hB⟩ := C1_every_page_verified_before_registration sampleConfig
    corruptPageEnv sampleLayout samplePageablePart sampleState
  have ht' : (init_runtime_pager sampleConfig corruptPageEnv sampleLayout samplePageablePart
      sampleState).state.trace = t := by
    rw [ht]; rfl
  obtain ⟨hashes, store, n, h1, h2, h3, h4, _, _, h7, h8⟩ :=
    hB (0x0e102000 + 1 * 32) (0x0f000000 + 1 * 4096) 4096 0xffff0006
      (by rw [← ht']; decide) (by decide)
  exact ⟨hashes, store, n, h1, h2, h3, h4, h7, by rw [ht']; exact h8⟩

/-! ## C2: the size of the hash table -/

theorem check_hash_size_run (w page digest psz declared : Nat) (s : State) :
    check_hash_size w page digest psz declared s =
      ⟨s, if psz % page = 0 then
            (if wmul w (psz / page) digest = declared % 2 ^ w
              then Outcome.done (wmul w (psz / page) digest)
              else Outcome.halt Halt.hash_size_mismatch)
          else Outcome.halt Halt.pageable_size_unaligned⟩ := by
  unfold check_hash_size TEE_ASSERT
  simp only [bind_run]
  by_cases h1 : psz % page = 0
  · by_cases h2 : wmul w (psz / page) digest = declared % 2 ^ w
    · simp [h1, h2, Boot.pure]
    · simp [h1, h2, Boot.pure, halt]
  · simp [h1, Boot.pure, halt]

theorem ceil_div_of_mod_zero {a b : Nat} (hb : 0 < b) (h : a % b = 0) :
    (a + b - 1) / b = a / b := by
  obtain ⟨c, rfl⟩ := Nat.dvd_of_mod_eq_zero h
  rw [Nat.mul_div_cancel_left c hb, Nat.add_sub_assoc hb]
  rw [Nat.mul_add_div hb, Nat.div_eq_of_lt (by omega)]
  rfl

/-- C2 (amended): for a positive page size, a digest size not above the page size and sizes
that fit the machine word, the hash-table loading step of `init_runtime` passes its two size
assertions if and only if `pageable_size` is a multiple of the page size and the declared
size `__tmp_hashes_size` equals `ceil(pageable_size / page_size) * digest_size`. -/
theorem C2_hash_size_accepted_iff (w page digest psz declared : Nat) (s : State)
    (hpage : 0 < page) (hdigest : digest ≤ page) (hpsz : psz < 2 ^ w)
    (hdeclared : declared < 2 ^ w) :
    (∃ hash_size, (check_hash_size w page digest psz declared s).outcome
        = Outcome.done hash_size) ↔
      (psz % page = 0 ∧ declared = (psz + page - 1) / page * digest) := by
  have hle : psz / page * digest ≤ psz :=
    le_trans (Nat.mul_le_mul_left _ hdigest) (Nat.div_mul_le_self psz page)
  have hmul : wmul w (psz / page) digest = psz / page * digest :=
    wmul_of_lt (lt_of_le_of_lt hle hpsz)
  rw [check_hash_size_run, hmul, Nat.mod_eq_of_lt hdeclared]
  constructor
  · rintro ⟨hs, h⟩
    by_cases h1 : psz % page = 0
    · by_cases h2 : psz / page * digest = declared
      · exact ⟨h1, by rw [ceil_div_of_mod_zero hpage h1]; exact h2.symm⟩
      · simp [h1, h2] at h
    · simp [h1] at h
  · rintro ⟨h1, h2⟩
    rw [ceil_div_of_mod_zero hpage h1] at h2
    exact ⟨psz / page * digest, by simp [h1, h2]⟩

/-- C2, witness: three pages of 4096 bytes with 32-byte digests and a table of 96 bytes. -/
theorem C2_hash_size_accepted_iff_witness :
    (∃ hash_size, (check_hash_size 32 4096 32 12288 96 sampleState).outcome
        = Outcome.done hash_size) ↔
      (12288 % 4096 = 0 ∧ 96 = (12288 + 4096 - 1) / 4096 * 32) :=
  C2_hash_size_accepted_iff 32 4096 32 12288 96 sampleState (by decide) (by decide)
    (by decide) (by decide)

/-- C2, counterexample: with `pageable_size = 1` and a declared table size of 32 bytes, the
declared size equals `ceil(1 / 4096) * 32`, yet the loading step halts on its first size
assertion, and so does `init_runtime` for a layout with these sizes. -/
theorem C2_counterexample :
    32 = (1 + 4096 - 1) / 4096 * 32 ∧
      (check_hash_size 32 SMALL_PAGE_SIZE TEE_SHA256_HASH_SIZE 1 32 sampleState).outcome
        = Outcome.halt Halt.pageable_size_unaligned ∧
      pageable_size sampleConfig oddLayout = 1 ∧ oddLayout.tmp_hashes_size = 32 ∧
      (init_runtime_pager sampleConfig sampleEnv oddLayout samplePageablePart
        sampleState).outcome = Outcome.halt Halt.pageable_size_unaligned := by
  decide

/-! ## C3: relocation -/

theorem relocate_run_some {cfg : Config} {env : Env} {L : Layout} {pp : Nat} {s : State}
    {mm : tee_mm_entry}
    (h : env.tee_mm_alloc env.teecore_init_ta_ram (pageable_size cfg L) = some mm) :
    relocate cfg env L pp s =
      ⟨{ s with
          mem := fun a =>
            if mm.base + init_size cfg L ≤ a ∧ a < mm.base + init_size cfg L +
                wsub cfg.bits L.pageable_part_end L.pageable_part_start then
              (fun a => if mm.base ≤ a ∧ a < mm.base + init_size cfg L
                then s.mem (L.init_start + (a - mm.base)) else s.mem a)
                (pp + (a - (mm.base + init_size cfg L)))
            else if mm.base ≤ a ∧ a < mm.base + init_size cfg L
              then s.mem (L.init_start + (a - mm.base)) else s.mem a,
          tee_mm_sec_ddr := some { env.teecore_init_ta_ram with
            entries := env.teecore_init_ta_ram.entries ++ [mm] },
          trace := s.trace ++ [Event.teecore_init_ta_ram,
            Event.tee_mm_alloc (pageable_size cfg L) (some mm),
            Event.memcpy mm.base L.init_start (init_size cfg L),
            Event.memcpy (mm.base + init_size cfg L) pp
              (wsub cfg.bits L.pageable_part_end L.pageable_part_start)] },
        Outcome.done mm.base⟩ := by
  unfold relocate teecore_init_ta_ram tee_mm_alloc_sec_ddr
  simp [bind_run, emit, modifyState, getState, h, memcpy, Boot.pure]

theorem relocate_run_none {cfg : Config} {env : Env} {L : Layout} {pp : Nat} {s : State}
    (h : env.tee_mm_alloc env.teecore_init_ta_ram (pageable_size cfg L) = none) :
    (relocate cfg env L pp s).outcome = Outcome.halt Halt.store_alloc_failed := by
  unfold relocate teecore_init_ta_ram tee_mm_alloc_sec_ddr
  simp [bind_run, emit, modifyState, getState, h, Boot.pure, halt]

theorem readBytes_append (mem : Nat → Nat) (addr a b : Nat) :
    readBytes mem addr (a + b) = readBytes mem addr a ++ readBytes mem (addr + a) b := by
  unfold readBytes
  rw [List.range_add, List.map_append, List.map_map]
  congr 1
  apply List.map_congr_left
  intro i _
  simp [Nat.add_assoc]

theorem readBytes_congr {m1 m2 : Nat → Nat} {a1 a2 n : Nat}
    (h : ∀ i, i < n → m1 (a1 + i) = m2 (a2 + i)) : readBytes m1 a1 n = readBytes m2 a2 n := by
  unfold readBytes
  apply List.map_congr_left
  intro i hi
  exact h i (List.mem_range.1 hi)

/-- C3 (amended): when the sizes of the init part and of the staged pageable part add up to
`pageable_size` and the store does not overlap the two source regions, then after the two
copies of `init_runtime` the store of `pageable_size` bytes equals the init part followed by
the pageable part, byte for byte, and no byte outside the store has changed. -/
theorem C3_store_is_init_then_pageable (cfg : Config) (env : Env) (L : Layout) (pp : Nat)
    (s : State) (store : Nat)
    (hdone : (relocate cfg env L pp s).outcome = Outcome.done store)
    (hsum : init_size cfg L + pageable_part_size cfg L = pageable_size cfg L)
    (hinit : L.init_start + init_size cfg L ≤ store ∨
      store + pageable_size cfg L ≤ L.init_start)
    (hpart : pp + pageable_part_size cfg L ≤ store ∨ store + pageable_size cfg L ≤ pp) :
    readBytes (relocate cfg env L pp s).state.mem store (pageable_size cfg L) =
        readBytes s.mem L.init_start (init_size cfg L) ++
          readBytes s.mem pp (pageable_part_size cfg L) ∧
      ∀ a, a < store ∨ store + pageable_size cfg L ≤ a →
        (relocate cfg env L pp s).state.mem a = s.mem a := by
  cases halloc : env.tee_mm_alloc env.teecore_init_ta_ram (pageable_size cfg L) with
  | none => rw [relocate_run_none halloc] at hdone; simp at hdone
  | some mm =>
    rw [relocate_run_some halloc] at hdone ⊢
    simp only [Outcome.done.injEq] at hdone
    subst hdone
    unfold pageable_part_size at hsum hpart ⊢
    constructor
    · rw [← hsum, readBytes_append]
      congr 1
      · apply readBytes_congr
        intro i hi
        simp only
        rw [if_neg (by omega), if_pos (by omega)]
        congr 1
        omega
      · apply readBytes_congr
        intro i hi
        simp only
        rw [if_pos (by omega), if_neg (by omega)]
        congr 1
        omega
    · intro a ha
      simp only
      rw [if_neg (by omega), if_neg (by omega)]

/-- C3, witness: the sample image, an init part of `0x1800` bytes followed by a pageable part
of `0x1800` bytes in a store of three pages. -/
theorem C3_store_is_init_then_pageable_witness :
    ((relocate sampleConfig sampleEnv sampleLayout samplePageablePart sampleState).outcome
        = Outcome.done 0x0f000000 ∧
      init_size sampleConfig sampleLayout + pageable_part_size sampleConfig sampleLayout
        = pageable_size sampleConfig sampleLayout) ∧
    (readBytes (relocate sampleConfig sampleEnv sampleLayout samplePageablePart
          sampleState).state.mem 0x0f000000 (pageable_size sampleConfig sampleLayout) =
        readBytes sampleState.mem sampleLayout.init_start (init_size sampleConfig sampleLayout) ++
          readBytes sampleState.mem samplePageablePart
            (pageable_part_size sampleConfig sampleLayout) ∧
      ∀ a, a < 0x0f000000 ∨ 0x0f000000 + pageable_size sampleConfig sampleLayout ≤ a →
        (relocate sampleConfig sampleEnv sampleLayout samplePageablePart sampleState).state.mem a
          = sampleState.mem a) :=
  ⟨⟨by decide, by decide⟩,
    C3_store_is_init_then_pageable sampleConfig sampleEnv sampleLayout samplePageablePart
      sampleState 0x0f000000 (by decide) (by decide) (by decide) (by decide)⟩

/-- C3, counterexample: two runs. In the first the init part fills the store of one page and
the staged pageable part has one byte: `init_runtime` completes, and the second copy has
changed the byte right after the end of the store. In the second the sizes add up, but the
boot loader staged the pageable part where the store is allocated: the first copy overwrites
the staged bytes, and the store byte at offset `init_size` is the first byte of the init
part, not the first byte that was staged. -/
theorem C3_counterexample :
    ((init_runtime_pager sampleConfig sampleEnv overlongLayout samplePageablePart
        sampleState).outcome = Outcome.done () ∧
      (relocate sampleConfig sampleEnv overlongLayout samplePageablePart sampleState).outcome
        = Outcome.done 0x0f000000 ∧
      pageable_size sampleConfig overlongLayout = 0x1000 ∧
      (relocate sampleConfig sampleEnv overlongLayout samplePageablePart sampleState).state.mem
          (0x0f000000 + 0x1000) ≠ sampleState.mem (0x0f000000 + 0x1000)) ∧
    ((relocate sampleConfig sampleEnv sampleLayout 0x0f000000 sampleState).outcome
        = Outcome.done 0x0f000000 ∧
      init_size sampleConfig sampleLayout + pageable_part_size sampleConfig sampleLayout
        = pageable_size sampleConfig sampleLayout ∧
      init_size sampleConfig sampleLayout = 0x1800 ∧
      (relocate sampleConfig sampleEnv sampleLayout 0x0f000000 sampleState).state.mem
          (0x0f000000 + 0x1800) ≠ sampleState.mem (0x0f000000 + 0)) := by
  decide

/-! ## The virtual core space -/

theorem tee_mm_init_vcore_run (lo hi shift flags : Nat) (s : State) :
    tee_mm_init_vcore lo hi shift flags s =
      match tee_mm_init lo hi shift with
      | none => ⟨{ s with trace := s.trace ++ [Event.tee_mm_init lo hi shift flags false] },
          Outcome.done false⟩
      | some pool => ⟨{ s with
          tee_mm_vcore := some pool,
          trace := s.trace ++ [Event.tee_mm_init lo hi shift flags true] }, Outcome.done true⟩ := by
  unfold tee_mm_init_vcore
  cases tee_mm_init lo hi shift <;> rfl

theorem vcore_bounds_run (s : State) :
    vcore_bounds s = ⟨s, Outcome.done (match s.tee_mm_vcore with
      | none => (0, 0)
      | some pool => (pool.lo, pool.hi))⟩ := by
  unfold vcore_bounds
  simp only [bind_run, getState]
  cases s.tee_mm_vcore <;> rfl

theorem tee_mm_alloc2_vcore_run (base size : Nat) (s : State) :
    tee_mm_alloc2_vcore base size s =
      match s.tee_mm_vcore.bind (fun pool => tee_mm_alloc2 pool base size) with
      | none => ⟨{ s with trace := s.trace ++ [Event.tee_mm_alloc2 base size false] },
          Outcome.done none⟩
      | some r => ⟨{ s with
          tee_mm_vcore := some r.2,
          trace := s.trace ++ [Event.tee_mm_alloc2 base size true] }, Outcome.done (some r.1)⟩ := by
  unfold tee_mm_alloc2_vcore
  simp only [bind_run, getState]
  cases s.tee_mm_vcore.bind (fun pool => tee_mm_alloc2 pool base size) <;> rfl

/-- What a completed `build_vcore` has done: the pool was initialised with the rounded
bounds and the three reservations succeeded one after the other. -/
theorem build_vcore_done {cfg : Config} {env : Env} {L : Layout} {s : State} {mm : tee_mm_entry}
    (h : (build_vcore cfg env L s).outcome = Outcome.done mm) :
    ∃ bs pool a1 p1 a2 p2 p3,
      (get_block_size cfg env s).outcome = Outcome.done bs ∧
      tee_mm_init (ROUNDDOWN cfg.bits cfg.CFG_TEE_RAM_START bs)
        (ROUNDUP cfg.bits (wadd cfg.bits cfg.CFG_TEE_RAM_START cfg.CFG_TEE_RAM_VA_SIZE) bs)
        SMALL_PAGE_SHIFT = some pool ∧
      tee_mm_alloc2 pool (wsub cfg.bits pool.hi cfg.TZSRAM_SIZE) cfg.TZSRAM_SIZE
        = some (a1, p1) ∧
      tee_mm_alloc2 p1 p1.lo (wsub cfg.bits L.text_init_start p1.lo) = some (a2, p2) ∧
      tee_mm_alloc2 p2 L.pageable_start (pageable_size cfg L) = some (mm, p3) ∧
      (build_vcore cfg env L s).state.tee_mm_vcore = some p3 := by
  unfold build_vcore reserve_vcore at h ⊢
  cases hbs : (get_block_size cfg env s).outcome with
  | halt e => rw [bind_run_halt hbs] at h; simp at h
  | done bs =>
    rw [bind_run_done hbs] at h ⊢
    simp only [bind_run, tee_mm_init_vcore_run] at h ⊢
    cases hinit : tee_mm_init (ROUNDDOWN cfg.bits cfg.CFG_TEE_RAM_START bs)
        (ROUNDUP cfg.bits (wadd cfg.bits cfg.CFG_TEE_RAM_START cfg.CFG_TEE_RAM_VA_SIZE) bs)
        SMALL_PAGE_SHIFT with
    | none => simp [hinit, halt] at h
    | some pool =>
      simp only [hinit, bind_run, vcore_bounds_run, tee_mm_alloc2_vcore_run, Bool.not_true,
        Bool.false_eq_true, if_false, Option.some_bind] at h ⊢
      cases h1 : tee_mm_alloc2 pool (wsub cfg.bits pool.hi cfg.TZSRAM_SIZE) cfg.TZSRAM_SIZE with
      | none => simp [h1, halt] at h
      | some r1 =>
        simp only [h1, emit, bind_run, vcore_bounds_run, tee_mm_alloc2_vcore_run,
          Option.some_bind] at h ⊢
        cases h2 : tee_mm_alloc2 r1.2 r1.2.lo (wsub cfg.bits L.text_init_start r1.2.lo) with
        | none => simp [h2, halt] at h
        | some r2 =>
          simp only [h2, bind_run, tee_mm_alloc2_vcore_run, Option.some_bind] at h ⊢
          cases h3 : tee_mm_alloc2 r2.2 L.pageable_start (pageable_size cfg L) with
          | none => simp [h3, halt] at h
          | some r3 =>
            simp only [h3, Boot.pure, Outcome.done.injEq] at h ⊢
            subst h
            exact ⟨bs, pool, r1.1, r1.2, r2.1, r2.2, r3.2, rfl, hinit, h1, h2, h3, rfl⟩

theorem tee_mm_init_some {lo hi shift : Nat} {pool : tee_mm_pool}
    (h : tee_mm_init lo hi shift = some pool) :
    pool = { lo := lo, hi := hi, shift := shift, entries := [] } ∧ lo < hi ∧
      lo % 2 ^ shift = 0 ∧ hi % 2 ^ shift = 0 := by
  unfold tee_mm_init at h
  split at h
  · rename_i hc
    simp only [Option.some.injEq] at h
    exact ⟨h.symm, hc⟩
  · simp at h

theorem tee_mm_alloc2_some {pool : tee_mm_pool} {base size : Nat} {mm : tee_mm_entry}
    {pool' : tee_mm_pool} (h : tee_mm_alloc2 pool base size = some (mm, pool')) :
    mm = { base := base, size := size } ∧
      pool' = { pool with entries := pool.entries ++ [mm] } ∧
      pool.lo ≤ base ∧ base + size ≤ pool.hi ∧
      ∀ e ∈ pool.entries, base + size ≤ e.base ∨ e.base + e.size ≤ base := by
  unfold tee_mm_alloc2 at h
  split at h
  · rename_i hc
    simp only [Option.some.injEq, Prod.mk.injEq] at h
    obtain ⟨h1, h2⟩ := h
    refine ⟨h1.symm, ?_, hc.1, hc.2.1, ?_⟩
    · rw [← h2, ← h1]
    · intro e he
      have := List.all_eq_true.1 hc.2.2 e he
      simpa [tee_mm_entry.disjoint] using this
  · simp at h

theorem register_pager_run (cfg : Config) (env : Env) (L : Layout) (mm : tee_mm_entry)
    (store hashes : Nat) (s : State) :
    register_pager cfg env L mm store hashes s =
      if env.tee_pager_add_area mm (cfg.TEE_PAGER_AREA_RO ||| cfg.TEE_PAGER_AREA_X) store hashes
          = true then
        ⟨{ s with trace := s.trace ++ [
            Event.tee_pager_add_area mm (cfg.TEE_PAGER_AREA_RO ||| cfg.TEE_PAGER_AREA_X)
              store hashes true,
            Event.tee_pager_add_pages L.pageable_start
              (ROUNDUP cfg.bits (init_size cfg L) SMALL_PAGE_SIZE / SMALL_PAGE_SIZE) false,
            Event.tee_pager_add_pages
              (wadd cfg.bits L.pageable_start (ROUNDUP cfg.bits (init_size cfg L) SMALL_PAGE_SIZE))
              (wsub cfg.bits (pageable_size cfg L)
                (ROUNDUP cfg.bits (init_size cfg L) SMALL_PAGE_SIZE) / SMALL_PAGE_SIZE) true] },
          Outcome.done ()⟩
      else
        ⟨{ s with trace := s.trace ++ [
            Event.tee_pager_add_area mm (cfg.TEE_PAGER_AREA_RO ||| cfg.TEE_PAGER_AREA_X)
              store hashes false] },
          Outcome.halt Halt.add_area_failed⟩ := by
  unfold register_pager tee_pager_add_area
  by_cases h : env.tee_pager_add_area mm (cfg.TEE_PAGER_AREA_RO ||| cfg.TEE_PAGER_AREA_X)
      store hashes = true
  · simp [bind_run, emit, Boot.pure, h]
  · simp [bind_run, emit, Boot.pure, halt, h]

/-- What a completed `init_runtime` has done: the image part and `build_vcore` completed
and the area was registered. -/
theorem init_runtime_pager_done {cfg : Config} {env : Env} {L : Layout} {pp : Nat} {s : State}
    (h : (init_runtime_pager cfg env L pp s).outcome = Outcome.done ()) :
    ∃ r mm,
      (init_runtime_image cfg env L pp s).outcome = Outcome.done r ∧
      (build_vcore cfg env L (init_runtime_image cfg env L pp s).state).outcome
        = Outcome.done mm ∧
      env.tee_pager_add_area mm (cfg.TEE_PAGER_AREA_RO ||| cfg.TEE_PAGER_AREA_X) r.2 r.1
        = true ∧
      init_runtime_pager cfg env L pp s =
        register_pager cfg env L mm r.2 r.1
          (build_vcore cfg env L (init_runtime_image cfg env L pp s).state).state := by
  unfold init_runtime_pager at h ⊢
  obtain ⟨r, hr, e1⟩ := bind_done h
  rw [e1] at h ⊢
  obtain ⟨mm, hmm, e2⟩ := bind_done h
  rw [e2] at h ⊢
  refine ⟨r, mm, hr, hmm, ?_, rfl⟩
  rw [register_pager_run] at h
  by_contra hne
  rw [if_neg hne] at h
  simp at h

theorem init_runtime_image_done {cfg : Config} {env : Env} {L : Layout} {pp : Nat} {s : State}
    {r : Nat × Nat} (h : (init_runtime_image cfg env L pp s).outcome = Outcome.done r) :
    (init_runtime_relocated cfg env L pp s).outcome = Outcome.done r := by
  unfold init_runtime_image at h
  obtain ⟨r', hr, e1⟩ := bind_done h
  rw [e1] at h
  obtain ⟨_, _, e2⟩ := bind_done h
  rw [e2] at h
  obtain ⟨_, _, e3⟩ := bind_done h
  rw [e3] at h
  simp only [Boot.pure, Outcome.done.injEq] at h
  rw [hr, h]

/-- The pool of a completed `init_runtime`: its bounds are machine words and its entries
are the three reservations, with the offsets computed without wrap-around. -/
theorem vcore_of_done {cfg : Config} {env : Env} {L : Layout} {pp : Nat} {s : State}
    (htis : L.text_init_start < 2 ^ cfg.bits)
    (h : (init_runtime_pager cfg env L pp s).outcome = Outcome.done ()) :
    ∃ pool, (init_runtime_pager cfg env L pp s).state.tee_mm_vcore = some pool ∧
      pool.lo < pool.hi ∧ pool.hi < 2 ^ cfg.bits ∧
      cfg.TZSRAM_SIZE ≤ pool.hi ∧ pool.lo ≤ L.text_init_start ∧
      pool.entries = [{ base := pool.hi - cfg.TZSRAM_SIZE, size := cfg.TZSRAM_SIZE },
        { base := pool.lo, size := L.text_init_start - pool.lo },
        { base := L.pageable_start, size := pageable_size cfg L }] ∧
      (pool.lo ≤ pool.hi - cfg.TZSRAM_SIZE) ∧
      (L.text_init_start ≤ pool.hi) ∧
      (pool.lo ≤ L.pageable_start ∧ L.pageable_start + pageable_size cfg L ≤ pool.hi) ∧
      (L.text_init_start ≤ pool.hi - cfg.TZSRAM_SIZE ∨ pool.hi ≤ pool.lo) ∧
      (L.pageable_start + pageable_size cfg L ≤ pool.hi - cfg.TZSRAM_SIZE ∨
        pool.hi ≤ L.pageable_start) ∧
      (L.pageable_start + pageable_size cfg L ≤ pool.lo ∨
        L.text_init_start ≤ L.pageable_start) := by
  obtain ⟨r, mm, _, hb, _, e⟩ := init_runtime_pager_done h
  obtain ⟨bs, pool, a1, p1, a2, p2, p3, _, hinit, h1, h2, h3, hv⟩ := build_vcore_done hb
  obtain ⟨hpool, hlohi, _, _⟩ := tee_mm_init_some hinit
  have hhi := ROUNDUP_lt cfg.bits (wadd cfg.bits cfg.CFG_TEE_RAM_START cfg.CFG_TEE_RAM_VA_SIZE) bs
  generalize ROUNDDOWN cfg.bits cfg.CFG_TEE_RAM_START bs = lo at hpool hlohi
  generalize ROUNDUP cfg.bits (wadd cfg.bits cfg.CFG_TEE_RAM_START cfg.CFG_TEE_RAM_VA_SIZE) bs
    = hi at hpool hlohi hhi
  subst hpool
  obtain ⟨ha1, hp1, hin1, hin1', _⟩ := tee_mm_alloc2_some h1
  subst hp1
  obtain ⟨ha2, hp2, hin2, hin2', hd2⟩ := tee_mm_alloc2_some h2
  subst hp2
  obtain ⟨ha3, hp3, hin3, hin3', hd3⟩ := tee_mm_alloc2_some h3
  subst hp3
  simp only [List.nil_append, List.singleton_append, List.cons_append, List.mem_singleton,
    List.mem_cons, forall_eq_or_imp, forall_eq, List.not_mem_nil, false_implies,
    implies_true, and_true] at ha1 ha2 ha3 hin1 hin1' hin2 hin2' hd2 hin3 hin3' hd3 hv
  have htz : cfg.TZSRAM_SIZE ≤ hi := by omega
  have hbase1 : wsub cfg.bits hi cfg.TZSRAM_SIZE = hi - cfg.TZSRAM_SIZE := wsub_of_le htz hhi
  have hlo : lo ≤ L.text_init_start := by
    by_contra hlt
    have hlt' : L.text_init_start < lo := by omega
    rw [wsub_of_lt hlt' (by omega)] at hin2'
    omega
  have hsize2 : wsub cfg.bits L.text_init_start lo = L.text_init_start - lo :=
    wsub_of_le hlo htis
  rw [hbase1] at ha1 hin1 hin1'
  rw [hsize2] at ha2 hin2'
  subst ha1 ha2 ha3
  simp only at hd2 hd3
  refine ⟨{ lo := lo, hi := hi, shift := SMALL_PAGE_SHIFT, entries :=
      [{ base := hi - cfg.TZSRAM_SIZE, size := cfg.TZSRAM_SIZE },
        { base := lo, size := L.text_init_start - lo },
        { base := L.pageable_start, size := pageable_size cfg L }] }, ?_, hlohi, hhi, htz, hlo,
    rfl, hin1, ?_, ⟨hin3, hin3'⟩, ?_, ?_, ?_⟩
  · rw [e, register_pager_run]
    split <;> exact hv
  · simp only; omega
  · simp only; omega
  · simp only; omega
  · simp only; omega

/-! ## C4: the three reservations -/

/-- C4: when `init_runtime` completes, the three reservations it made in `tee_mm_vcore`,
the alias window `[hi - TZSRAM_SIZE, hi)`, the resident range `[lo, __text_init_start)` and
the paged range `[__pageable_start, __pageable_start + pageable_size)`, are the entries of
the pool, each lies inside `[lo, hi)` and no two of them overlap. -/
theorem C4_reservations_disjoint_and_inside (cfg : Config) (env : Env) (L : Layout) (pp : Nat)
    (s : State) (htis : L.text_init_start < 2 ^ cfg.bits)
    (hdone : (init_runtime_pager cfg env L pp s).outcome = Outcome.done ()) :
    ∃ pool, (init_runtime_pager cfg env L pp s).state.tee_mm_vcore = some pool ∧
      cfg.TZSRAM_SIZE ≤ pool.hi ∧ pool.lo ≤ L.text_init_start ∧
      pool.entries = [{ base := pool.hi - cfg.TZSRAM_SIZE, size := cfg.TZSRAM_SIZE },
        { base := pool.lo, size := L.text_init_start - pool.lo },
        { base := L.pageable_start, size := pageable_size cfg L }] ∧
      -- each reservation lies inside `[lo, hi)`
      (pool.lo ≤ pool.hi - cfg.TZSRAM_SIZE ∧ pool.hi - cfg.TZSRAM_SIZE + cfg.TZSRAM_SIZE ≤ pool.hi) ∧
      (pool.lo ≤ pool.lo ∧ L.text_init_start ≤ pool.hi) ∧
      (pool.lo ≤ L.pageable_start ∧ L.pageable_start + pageable_size cfg L ≤ pool.hi) ∧
      -- resident and alias, paged and alias, paged and resident do not overlap
      (L.text_init_start ≤ pool.hi - cfg.TZSRAM_SIZE ∨ pool.hi ≤ pool.lo) ∧
      (L.pageable_start + pageable_size cfg L ≤ pool.hi - cfg.TZSRAM_SIZE ∨
        pool.hi ≤ L.pageable_start) ∧
      (L.pageable_start + pageable_size cfg L ≤ pool.lo ∨
        L.text_init_start ≤ L.pageable_start) := by
  obtain ⟨pool, hv, _, _, htz, hlo, hent, h1, h2, h3, h4, h5, h6⟩ := vcore_of_done htis hdone
  exact ⟨pool, hv, htz, hlo, hent, ⟨h1, by omega⟩, ⟨le_refl _, h2⟩, h3, h4, h5, h6⟩

/-- C4, witness: the sample run completes; its core space is `[0x0e100000, 0x0e200000)`. -/
theorem C4_reservations_disjoint_and_inside_witness :
    ∃ pool, (init_runtime_pager sampleConfig sampleEnv sampleLayout samplePageablePart
        sampleState).state.tee_mm_vcore = some pool ∧
      sampleConfig.TZSRAM_SIZE ≤ pool.hi ∧ pool.lo ≤ sampleLayout.text_init_start ∧
      pool.entries = [{ base := pool.hi - sampleConfig.TZSRAM_SIZE, size := sampleConfig.TZSRAM_SIZE },
        { base := pool.lo, size := sampleLayout.text_init_start - pool.lo },
        { base := sampleLayout.pageable_start, size := pageable_size sampleConfig sampleLayout }] ∧
      (pool.lo ≤ pool.hi - sampleConfig.TZSRAM_SIZE ∧
        pool.hi - sampleConfig.TZSRAM_SIZE + sampleConfig.TZSRAM_SIZE ≤ pool.hi) ∧
      (pool.lo ≤ pool.lo ∧ sampleLayout.text_init_start ≤ pool.hi) ∧
      (pool.lo ≤ sampleLayout.pageable_start ∧
        sampleLayout.pageable_start + pageable_size sampleConfig sampleLayout ≤ pool.hi) ∧
      (sampleLayout.text_init_start ≤ pool.hi - sampleConfig.TZSRAM_SIZE ∨ pool.hi ≤ pool.lo) ∧
      (sampleLayout.pageable_start + pageable_size sampleConfig sampleLayout
          ≤ pool.hi - sampleConfig.TZSRAM_SIZE ∨ pool.hi ≤ sampleLayout.pageable_start) ∧
      (sampleLayout.pageable_start + pageable_size sampleConfig sampleLayout ≤ pool.lo ∨
        sampleLayout.text_init_start ≤ sampleLayout.pageable_start) :=
  C4_reservations_disjoint_and_inside sampleConfig sampleEnv sampleLayout samplePageablePart
    sampleState (by decide) (by decide)

/-! ## C9: resident range and paged range -/

/-- C9 (amended): when `__text_init_start` equals `__pageable_start` and `init_runtime`
completes, the resident reservation spans from `tee_mm_vcore.lo` exactly up to the start of
the paged image, the paged reservation is `[__pageable_start, __pageable_start +
pageable_size)`, the end of the first is the start of the second, and every address from
`lo` up to the end of the paged image lies in one of the two. -/
theorem C9_resident_meets_paged (cfg : Config) (env : Env) (L : Layout) (pp : Nat) (s : State)
    (htis : L.text_init_start < 2 ^ cfg.bits)
    (hsame : L.text_init_start = L.pageable_start)
    (hdone : (init_runtime_pager cfg env L pp s).outcome = Outcome.done ()) :
    ∃ pool window resident paged,
      (init_runtime_pager cfg env L pp s).state.tee_mm_vcore = some pool ∧
      pool.entries = [window, resident, paged] ∧
      resident.base = pool.lo ∧
      paged = { base := L.pageable_start, size := pageable_size cfg L } ∧
      resident.base + resident.size = paged.base ∧
      ∀ a, pool.lo ≤ a → a < L.pageable_start + pageable_size cfg L →
        (resident.base ≤ a ∧ a < resident.base + resident.size) ∨
        (paged.base ≤ a ∧ a < paged.base + paged.size) := by
  obtain ⟨pool, hv, _, _, _, hlo, hent, _⟩ := vcore_of_done htis hdone
  refine ⟨pool, _, _, _, hv, hent, rfl, rfl, ?_, ?_⟩
  · simp only; omega
  · intro a h1 h2
    simp only
    omega

/-- C9, witness: in the sample layout both symbols are `0x0e110000`. -/
theorem C9_resident_meets_paged_witness :
    ∃ pool window resident paged,
      (init_runtime_pager sampleConfig sampleEnv sampleLayout samplePageablePart
        sampleState).state.tee_mm_vcore = some pool ∧
      pool.entries = [window, resident, paged] ∧
      resident.base = pool.lo ∧
      paged = { base := sampleLayout.pageable_start,
                size := pageable_size sampleConfig sampleLayout } ∧
      resident.base + resident.size = paged.base ∧
      ∀ a, pool.lo ≤ a →
        a < sampleLayout.pageable_start + pageable_size sampleConfig sampleLayout →
        (resident.base ≤ a ∧ a < resident.base + resident.size) ∨
        (paged.base ≤ a ∧ a < paged.base + paged.size) :=
  C9_resident_meets_paged sampleConfig sampleEnv sampleLayout samplePageablePart sampleState
    (by decide) (by decide) (by decide)

/-- C9, counterexample: the pageable image starts one page after `__text_init_start`.
`init_runtime` completes, the resident reservation ends at `0x0e110000`, the paged
reservation starts at `0x0e111000`, and the page in between is not reserved. -/
theorem C9_counterexample :
    (init_runtime_pager sampleConfig sampleEnv gapLayout samplePageablePart
        sampleState).outcome = Outcome.done () ∧
      (init_runtime_pager sampleConfig sampleEnv gapLayout samplePageablePart
        sampleState).state.tee_mm_vcore =
        some { lo := 0x0e100000, hi := 0x0e200000, shift := 12, entries :=
          [{ base := 0x0e1c0000, size := 0x40000 }, { base := 0x0e100000, size := 0x10000 },
            { base := 0x0e111000, size := 0x3000 }] } ∧
      0x0e100000 + 0x10000 ≠ 0x0e111000 := by
  decide

/-! ## C5: the pages handed to the pager -/

theorem page_multiple_add_page_le {w p : Nat} (hw : 12 ≤ w) (hp : p < 2 ^ w)
    (hmod : p % 4096 = 0) : p + 4096 ≤ 2 ^ w := by
  have h2 : 2 ^ w = 4096 * 2 ^ (w - 12) := by
    have : (4096 : Nat) = 2 ^ 12 := by norm_num
    rw [this, ← pow_add]
    congr 1
    omega
  obtain ⟨c, rfl⟩ := Nat.dvd_of_mod_eq_zero hmod
  rw [h2] at hp ⊢
  have hc : c < 2 ^ (w - 12) := Nat.lt_of_mul_lt_mul_left hp
  have : 4096 * (c + 1) ≤ 4096 * 2 ^ (w - 12) := Nat.mul_le_mul_left _ hc
  omega

/-- C5: when `init_size <= pageable_size` and `init_runtime` completes, the last three calls
it makes are the registration of the paged area `[__pageable_start, __pageable_start +
pageable_size)`, read-only and executable, backed by the store and the hash table, then
`tee_pager_add_pages` for the first `ROUNDUP(init_size, page) / page` pages from
`__pageable_start` with `unmap = false`, then `tee_pager_add_pages` for the following
`(pageable_size - ROUNDUP(init_size, page)) / page` pages with `unmap = true`. No other pager
registration is made, the second count does not underflow, the second run starts where the
first ends and ends where the paged range ends. -/
theorem C5_init_pages_resident_rest_lazy (cfg : Config) (env : Env) (L : Layout) (pp : Nat)
    (s : State) (hsize : init_size cfg L ≤ pageable_size cfg L)
    (hdone : (init_runtime_pager cfg env L pp s).outcome = Outcome.done ()) :
    ∃ t hashes store,
      (init_runtime_relocated cfg env L pp s).outcome = Outcome.done (hashes, store) ∧
      (init_runtime_pager cfg env L pp s).state.trace = s.trace ++ t ++ [
        Event.tee_pager_add_area
          { base := L.pageable_start, size := pageable_size cfg L }
          (cfg.TEE_PAGER_AREA_RO ||| cfg.TEE_PAGER_AREA_X) store hashes true,
        Event.tee_pager_add_pages L.pageable_start
          (roundup (init_size cfg L) 4096 / 4096) false,
        Event.tee_pager_add_pages (L.pageable_start + roundup (init_size cfg L) 4096)
          ((pageable_size cfg L - roundup (init_size cfg L) 4096) / 4096) true] ∧
      (∀ e ∈ t, e.isPagerRegistration = false) ∧
      pageable_size cfg L % 4096 = 0 ∧
      roundup (init_size cfg L) 4096 ≤ pageable_size cfg L ∧
      L.pageable_start + roundup (init_size cfg L) 4096 / 4096 * 4096
        = L.pageable_start + roundup (init_size cfg L) 4096 ∧
      L.pageable_start + roundup (init_size cfg L) 4096
          + (pageable_size cfg L - roundup (init_size cfg L) 4096) / 4096 * 4096
        = L.pageable_start + pageable_size cfg L ∧
      roundup (init_size cfg L) 4096 / 4096
          + (pageable_size cfg L - roundup (init_size cfg L) 4096) / 4096
        = pageable_size cfg L / 4096 := by
  obtain ⟨r, mm, himg, hb, hadd, e⟩ := init_runtime_pager_done hdone
  have hrel := init_runtime_image_done himg
  have hmod := init_runtime_relocated_done hrel
  obtain ⟨bs, pool, a1, p1, a2, p2, p3, _, hinit, h1, h2, h3, _⟩ := build_vcore_done hb
  obtain ⟨hpool, _, _, _⟩ := tee_mm_init_some hinit
  obtain ⟨_, hp1, _, _, _⟩ := tee_mm_alloc2_some h1
  obtain ⟨_, hp2, _, _, _⟩ := tee_mm_alloc2_some h2
  obtain ⟨hmm, _, _, hin3, _⟩ := tee_mm_alloc2_some h3
  have hhi : p2.hi < 2 ^ cfg.bits := by
    rw [hp2, hp1, hpool]
    exact ROUNDUP_lt _ _ _
  have hpsz := pageable_size_lt cfg L
  have hR : ROUNDUP cfg.bits (init_size cfg L) 4096 = roundup (init_size cfg L) 4096 := by
    by_cases hbits : 12 ≤ cfg.bits
    · have hfit := page_multiple_add_page_le hbits hpsz hmod
      exact ROUNDUP_page hbits (by omega)
    · -- a word too short for a page: both sizes are zero
      have hsmall := two_pow_lt_page (w := cfg.bits) (by omega)
      have h0 : init_size cfg L = 0 := by omega
      rw [h0, ROUNDUP_zero_small cfg.bits (by omega)]
      rfl
  have hRle : roundup (init_size cfg L) 4096 ≤ pageable_size cfg L :=
    roundup_le_of_le_of_mod (by norm_num) hsize hmod
  have hRmod := roundup_mod (init_size cfg L) 4096
  obtain ⟨t1, ht1, hq1⟩ := (show Emits (fun e => e.isStep = false ∧ e.isPagerRegistration = false)
      (init_runtime_image cfg env L pp) from by
    have hq : ∀ e : Event, e.isQuiet = true → e.isStep = false ∧ e.isPagerRegistration = false := by
      intro e he
      simp only [Event.isQuiet, Bool.and_eq_true, Bool.not_eq_true'] at he
      exact ⟨he.1.1, he.1.2⟩
    unfold init_runtime_image
    apply Emits.bind ((init_runtime_relocated_emits cfg env L pp).mono hq)
    intro r
    apply Emits.bind (check_pages_emits _ _ _ _ _ _ _)
    intro _
    apply Emits.bind ((backfill_init_emits cfg L r.2).mono hq)
    intro _
    exact Emits.pure _ _).out s
  obtain ⟨t2, ht2, hq2⟩ := (build_vcore_emits cfg env L).out (init_runtime_image cfg env L pp s).state
  refine ⟨t1 ++ t2, r.1, r.2, hrel, ?_, ?_, hmod, hRle, ?_, ?_, ?_⟩
  · rw [e, register_pager_run, if_pos hadd]
    simp only [ht2, ht1, hmm, SMALL_PAGE_SIZE, hR]
    rw [wadd_of_lt (by omega), wsub_of_le hRle hpsz]
    simp
  · intro e he
    rcases List.mem_append.1 he with h | h
    · exact (hq1 e h).2
    · have := hq2 e h
      simp only [Event.isQuiet, Bool.and_eq_true, Bool.not_eq_true'] at this
      exact this.1.2
  · omega
  · omega
  · omega

/-- C5, witness: in the sample run the init part of `0x1800` bytes takes the first two pages
and the third page is left to be faulted in. -/
theorem C5_init_pages_resident_rest_lazy_witness :
    ∃ t hashes store,
      (init_runtime_relocated sampleConfig sampleEnv sampleLayout samplePageablePart
        sampleState).outcome = Outcome.done (hashes, store) ∧
      (init_runtime_pager sampleConfig sampleEnv sampleLayout samplePageablePart
        sampleState).state.trace = sampleState.trace ++ t ++ [
        Event.tee_pager_add_area
          { base := sampleLayout.pageable_start, size := pageable_size sampleConfig sampleLayout }
          (sampleConfig.TEE_PAGER_AREA_RO ||| sampleConfig.TEE_PAGER_AREA_X) store hashes true,
        Event.tee_pager_add_pages sampleLayout.pageable_start
          (roundup (init_size sampleConfig sampleLayout) 4096 / 4096) false,
        Event.tee_pager_add_pages
          (sampleLayout.pageable_start + roundup (init_size sampleConfig sampleLayout) 4096)
          ((pageable_size sampleConfig sampleLayout
            - roundup (init_size sampleConfig sampleLayout) 4096) / 4096) true] ∧
      (∀ e ∈ t, e.isPagerRegistration = false) ∧
      pageable_size sampleConfig sampleLayout % 4096 = 0 ∧
      roundup (init_size sampleConfig sampleLayout) 4096 ≤ pageable_size sampleConfig sampleLayout ∧
      sampleLayout.pageable_start + roundup (init_size sampleConfig sampleLayout) 4096 / 4096 * 4096
        = sampleLayout.pageable_start + roundup (init_size sampleConfig sampleLayout) 4096 ∧
      sampleLayout.pageable_start + roundup (init_size sampleConfig sampleLayout) 4096
          + (pageable_size sampleConfig sampleLayout
              - roundup (init_size sampleConfig sampleLayout) 4096) / 4096 * 4096
        = sampleLayout.pageable_start + pageable_size sampleConfig sampleLayout ∧
      roundup (init_size sampleConfig sampleLayout) 4096 / 4096
          + (pageable_size sampleConfig sampleLayout
              - roundup (init_size sampleConfig sampleLayout) 4096) / 4096
        = pageable_size sampleConfig sampleLayout / 4096 :=
  C5_init_pages_resident_rest_lazy sampleConfig sampleEnv sampleLayout samplePageablePart
    sampleState (by decide) (by decide)

/-! ## C7: the boot sequence of the primary core -/

theorem teecoreGuard_of_emits {α : Type} {x : Boot α}
    (h : Emits (fun e => e.isTeecore = false) x) : TeecoreGuard x := by
  refine ⟨fun s => ?_⟩
  obtain ⟨t, ht, hP⟩ := h.out s
  refine ⟨t, ht, fun res hmem _ => ?_⟩
  have := hP _ hmem
  simp [Event.isTeecore] at this

/-- One secondary bring-up leaves memory and both pools as they are and logs only per-core
calls; it completes unless the assertion of `init_sec_mon` fails, and when it completes it
has performed the five steps in order. -/
theorem secondary_entry_run (cfg : Config) (a0 a1 : Nat) (s : State) :
    (secondary_entry cfg a0 a1 s).state.mem = s.mem ∧
    (secondary_entry cfg a0 a1 s).state.tee_mm_sec_ddr = s.tee_mm_sec_ddr ∧
    (secondary_entry cfg a0 a1 s).state.tee_mm_vcore = s.tee_mm_vcore ∧
    ((secondary_entry cfg a0 a1 s).outcome = Outcome.done () ↔
      (cfg.CFG_WITH_ARM_TRUSTED_FW = true ∨ a0 ≠ PADDR_INVALID)) ∧
    (∃ t, (secondary_entry cfg a0 a1 s).state.trace = s.trace ++ t ∧
      (∀ e ∈ t, e.isPerCore = true) ∧
      ((secondary_entry cfg a0 a1 s).outcome = Outcome.done () →
        t.filter Event.isStep =
          [Event.thread_set_exceptions_all, Event.thread_init_per_cpu,
            Event.init_sec_mon (if cfg.CFG_WITH_ARM_TRUSTED_FW then PADDR_INVALID else a0),
            Event.init_vfp_sec, Event.init_vfp_nsec])) := by
  unfold secondary_entry generic_boot_cpu_on_handler generic_boot_init_secondary
    init_secondary_helper init_sec_mon init_vfp_sec init_vfp_nsec
  cases cfg.CFG_WITH_ARM_TRUSTED_FW <;> cases cfg.CFG_WITH_VFP <;> cases cfg.ARM64 <;>
    by_cases h : a0 = PADDR_INVALID <;>
    simp [bind_run, emit, modifyState, Boot.pure, halt, h, Event.isPerCore, Event.isStep]

/-- C6 (amended): for every sequence of secondary-core bring-ups (through
`generic_boot_cpu_on_handler` or `generic_boot_init_secondary`), memory, and with it the
pageable store, and the two region allocators are the same afterwards as before, and every
call logged is a per-core call: none is `init_runtime` or one of the one-time steps of the
primary core. A bring-up completes exactly when the assertion of `init_sec_mon` holds (always
with ARM Trusted Firmware, otherwise when `nsec_entry` is not `PADDR_INVALID`), and a
bring-up that completes has performed exactly: mask exceptions, per-core state init,
secure-monitor context init, secure FPU init, normal-world FPU enable, in that order. -/
theorem C6_secondary_bringups (cfg : Config) (calls : List (Nat × Nat)) (s : State) :
    (secondary_bringups cfg calls s).mem = s.mem ∧
    (secondary_bringups cfg calls s).tee_mm_sec_ddr = s.tee_mm_sec_ddr ∧
    (secondary_bringups cfg calls s).tee_mm_vcore = s.tee_mm_vcore ∧
    (∃ t, (secondary_bringups cfg calls s).trace = s.trace ++ t ∧
      ∀ e ∈ t, e.isPerCore = true) ∧
    (∀ a0 a1 s0,
      ((secondary_entry cfg a0 a1 s0).outcome = Outcome.done () ↔
        (cfg.CFG_WITH_ARM_TRUSTED_FW = true ∨ a0 ≠ PADDR_INVALID)) ∧
      ((secondary_entry cfg a0 a1 s0).outcome = Outcome.done () →
        ∃ t, (secondary_entry cfg a0 a1 s0).state.trace = s0.trace ++ t ∧
          t.filter Event.isStep =
            [Event.thread_set_exceptions_all, Event.thread_init_per_cpu,
              Event.init_sec_mon (if cfg.CFG_WITH_ARM_TRUSTED_FW then PADDR_INVALID else a0),
              Event.init_vfp_sec, Event.init_vfp_nsec])) := by
  refine ⟨?_, ?_, ?_, ?_, ?_⟩
  · induction calls generalizing s with
    | nil => rfl
    | cons a rest ih =>
      show (secondary_bringups cfg rest (secondary_entry cfg a.1 a.2 s).state).mem = s.mem
      rw [ih, (secondary_entry_run cfg a.1 a.2 s).1]
  · induction calls generalizing s with
    | nil => rfl
    | cons a rest ih =>
      show (secondary_bringups cfg rest (secondary_entry cfg a.1 a.2 s).state).tee_mm_sec_ddr
        = s.tee_mm_sec_ddr
      rw [ih, (secondary_entry_run cfg a.1 a.2 s).2.1]
  · induction calls generalizing s with
    | nil => rfl
    | cons a rest ih =>
      show (secondary_bringups cfg rest (secondary_entry cfg a.1 a.2 s).state).tee_mm_vcore
        = s.tee_mm_vcore
      rw [ih, (secondary_entry_run cfg a.1 a.2 s).2.2.1]
  · induction calls generalizing s with
    | nil => exact ⟨[], by simp [secondary_bringups], by simp⟩
    | cons a rest ih =>
      obtain ⟨t1, ht1, hp1, _⟩ := (secondary_entry_run cfg a.1 a.2 s).2.2.2.2
      obtain ⟨t2, ht2, hp2⟩ := ih (secondary_entry cfg a.1 a.2 s).state
      refine ⟨t1 ++ t2, ?_, ?_⟩
      · show (secondary_bringups cfg rest (secondary_entry cfg a.1 a.2 s).state).trace = _
        rw [ht2, ht1, List.append_assoc]
      · intro e he
        rcases List.mem_append.1 he with h | h
        · exact hp1 e h
        · exact hp2 e h
  · intro a0 a1 s0
    obtain ⟨_, _, _, hiff, t, ht, _, hsteps⟩ := secondary_entry_run cfg a0 a1 s0
    exact ⟨hiff, fun hd => ⟨t, ht, hsteps hd⟩⟩

/-- C6, witness: two secondary bring-ups after the sample primary bring-up; the first of them
completes with its five steps. -/
theorem C6_secondary_bringups_witness :
    (secondary_bringups sampleConfig [(0x80000000, 0), (0x80000000, 0)]
        (init_primary_helper sampleConfig sampleEnv sampleLayout samplePageablePart 0x80000000
          sampleState).state).tee_mm_vcore =
      (init_primary_helper sampleConfig sampleEnv sampleLayout samplePageablePart 0x80000000
          sampleState).state.tee_mm_vcore ∧
    ∃ t, (secondary_entry sampleConfig 0x80000000 0 sampleState).state.trace
        = sampleState.trace ++ t ∧
      t.filter Event.isStep =
        [Event.thread_set_exceptions_all, Event.thread_init_per_cpu,
          Event.init_sec_mon (if sampleConfig.CFG_WITH_ARM_TRUSTED_FW then PADDR_INVALID
            else 0x80000000),
          Event.init_vfp_sec, Event.init_vfp_nsec] :=
  ⟨(C6_secondary_bringups sampleConfig [(0x80000000, 0), (0x80000000, 0)]
      (init_primary_helper sampleConfig sampleEnv sampleLayout samplePageablePart 0x80000000
        sampleState).state).2.2.1,
    ((C6_secondary_bringups sampleConfig [] sampleState).2.2.2.2 0x80000000 0 sampleState).2
      (by decide)⟩

/-- C6, counterexample: in a build without ARM Trusted Firmware,
`generic_boot_init_secondary(PADDR_INVALID)` halts on the assertion of `init_sec_mon`; the
secure FPU init and the normal-world FPU enable are not performed. -/
theorem C6_counterexample :
    sampleConfig.CFG_WITH_ARM_TRUSTED_FW = false ∧
    (generic_boot_init_secondary sampleConfig PADDR_INVALID sampleState).outcome
      = Outcome.halt Halt.sec_mon_entry ∧
    (generic_boot_init_secondary sampleConfig PADDR_INVALID sampleState).state.trace
      = [Event.thread_set_exceptions_all, Event.thread_init_per_cpu,
          Event.init_sec_mon PADDR_INVALID] ∧
    secondary_entry sampleConfig PADDR_INVALID 0
      = generic_boot_init_secondary sampleConfig PADDR_INVALID :=
  ⟨by decide, by decide, by decide, rfl⟩

/-! ## C10: the bounds of the virtual core space -/

theorem core_mmu_find_table_run (env : Env) (va l : Nat) (s : State) :
    core_mmu_find_table env va l s =
      ⟨{ s with trace := s.trace ++
          [Event.core_mmu_find_table va l (env.core_mmu_find_table va l)] },
        Outcome.done (env.core_mmu_find_table va l)⟩ := rfl

/-- What a completed `get_block_size` returns: `1 << shift` for the shift of the table found
one level above the deepest table for `CFG_TEE_RAM_START`. -/
theorem get_block_size_done {cfg : Config} {env : Env} {s : State} {bs : Nat}
    (h : (get_block_size cfg env s).outcome = Outcome.done bs) :
    ∃ leaf tbl, env.core_mmu_find_table cfg.CFG_TEE_RAM_START UINT_MAX = some leaf ∧
      env.core_mmu_find_table cfg.CFG_TEE_RAM_START (wsub 32 leaf.level 1) = some tbl ∧
      bs = shl_one cfg.bits tbl.shift := by
  unfold get_block_size at h
  simp only [bind_run, core_mmu_find_table_run] at h
  cases h1 : env.core_mmu_find_table cfg.CFG_TEE_RAM_START UINT_MAX with
  | none => simp [h1, halt] at h
  | some leaf =>
    simp only [h1, bind_run, core_mmu_find_table_run] at h
    cases h2 : env.core_mmu_find_table cfg.CFG_TEE_RAM_START (wsub 32 leaf.level 1) with
    | none => simp [h2, halt] at h
    | some tbl =>
      simp only [h2, Boot.pure, Outcome.done.injEq] at h
      exact ⟨leaf, tbl, rfl, h2, h.symm⟩

/-- After `get_block_size` has returned `bs`, the next call of `build_vcore` is `tee_mm_init`
with the bounds `ROUNDDOWN(CFG_TEE_RAM_START, bs)` and `ROUNDUP(CFG_TEE_RAM_START +
CFG_TEE_RAM_VA_SIZE, bs)`, the shift of a small page and no flags. -/
theorem build_vcore_init_call {cfg : Config} {env : Env} {L : Layout} {s : State} {bs : Nat}
    (hbs : (get_block_size cfg env s).outcome = Outcome.done bs) :
    ∃ ok rest, (build_vcore cfg env L s).state.trace =
      (get_block_size cfg env s).state.trace ++
        Event.tee_mm_init (ROUNDDOWN cfg.bits cfg.CFG_TEE_RAM_START bs)
          (ROUNDUP cfg.bits (wadd cfg.bits cfg.CFG_TEE_RAM_START cfg.CFG_TEE_RAM_VA_SIZE) bs)
          SMALL_PAGE_SHIFT 0 ok :: rest := by
  unfold build_vcore
  rw [bind_run_done hbs, bind_run, tee_mm_init_vcore_run]
  cases tee_mm_init (ROUNDDOWN cfg.bits cfg.CFG_TEE_RAM_START bs)
      (ROUNDUP cfg.bits (wadd cfg.bits cfg.CFG_TEE_RAM_START cfg.CFG_TEE_RAM_VA_SIZE) bs)
      SMALL_PAGE_SHIFT with
  | none => exact ⟨false, [], rfl⟩
  | some pool =>
    obtain ⟨t, ht, _⟩ := (reserve_vcore_emits cfg L).out
      { (get_block_size cfg env s).state with
        tee_mm_vcore := some pool,
        trace := (get_block_size cfg env s).state.trace ++
          [Event.tee_mm_init (ROUNDDOWN cfg.bits cfg.CFG_TEE_RAM_START bs)
            (ROUNDUP cfg.bits (wadd cfg.bits cfg.CFG_TEE_RAM_START cfg.CFG_TEE_RAM_VA_SIZE) bs)
            SMALL_PAGE_SHIFT 0 true] }
    refine ⟨true, t, ?_⟩
    simp only [Bool.not_true, Bool.false_eq_true, if_false]
    rw [ht]
    simp

/-- C10 (amended): for a window of positive size and a block size `bs = 2 ^ shift` returned
by `get_block_size` (the size `1 << shift` of the table one level above the deepest table
found for `CFG_TEE_RAM_START`) such that `CFG_TEE_RAM_START + CFG_TEE_RAM_VA_SIZE + (bs - 1)`
fits the machine word, the bounds passed to `tee_mm_init` for the core virtual space, `low =
ROUNDDOWN(CFG_TEE_RAM_START, bs)` and `high = ROUNDUP(CFG_TEE_RAM_START +
CFG_TEE_RAM_VA_SIZE, bs)`, are computed without wrap-around, are both multiples of `bs`,
satisfy `low <= CFG_TEE_RAM_START`, `CFG_TEE_RAM_START + CFG_TEE_RAM_VA_SIZE <= high` and
`low < high`, and extend the window by less than `bs` on each side. -/
theorem C10_vcore_bounds (cfg : Config) (env : Env) (L : Layout) (s : State) (bs shift : Nat)
    (hbs : (get_block_size cfg env s).outcome = Outcome.done bs)
    (hpow : bs = 2 ^ shift)
    (hsize : 0 < cfg.CFG_TEE_RAM_VA_SIZE)
    (hfit : cfg.CFG_TEE_RAM_START + cfg.CFG_TEE_RAM_VA_SIZE + (bs - 1) < 2 ^ cfg.bits) :
    ∃ leaf tbl ok rest low high,
      -- `bs` is the size of the table one level above the deepest one
      env.core_mmu_find_table cfg.CFG_TEE_RAM_START UINT_MAX = some leaf ∧
      env.core_mmu_find_table cfg.CFG_TEE_RAM_START (wsub 32 leaf.level 1) = some tbl ∧
      bs = shl_one cfg.bits tbl.shift ∧
      -- the call of `tee_mm_init` that follows `get_block_size`, with its bounds
      (build_vcore cfg env L s).state.trace = (get_block_size cfg env s).state.trace ++
        Event.tee_mm_init low high SMALL_PAGE_SHIFT 0 ok :: rest ∧
      low = ROUNDDOWN cfg.bits cfg.CFG_TEE_RAM_START bs ∧
      high = ROUNDUP cfg.bits (wadd cfg.bits cfg.CFG_TEE_RAM_START cfg.CFG_TEE_RAM_VA_SIZE) bs ∧
      -- no wrap-around: the machine results are the mathematical ones
      wadd cfg.bits cfg.CFG_TEE_RAM_START cfg.CFG_TEE_RAM_VA_SIZE
        = cfg.CFG_TEE_RAM_START + cfg.CFG_TEE_RAM_VA_SIZE ∧
      low = cfg.CFG_TEE_RAM_START / bs * bs ∧
      high = (cfg.CFG_TEE_RAM_START + cfg.CFG_TEE_RAM_VA_SIZE + (bs - 1)) / bs * bs ∧
      high < 2 ^ cfg.bits ∧
      -- multiples of `bs` that enclose the window, by less than `bs` on each side
      low % bs = 0 ∧ high % bs = 0 ∧
      low ≤ cfg.CFG_TEE_RAM_START ∧
      cfg.CFG_TEE_RAM_START + cfg.CFG_TEE_RAM_VA_SIZE ≤ high ∧
      low < high ∧
      cfg.CFG_TEE_RAM_START - low < bs ∧
      high - (cfg.CFG_TEE_RAM_START + cfg.CFG_TEE_RAM_VA_SIZE) < bs := by
  obtain ⟨leaf, tbl, h1, h2, h3⟩ := get_block_size_done hbs
  obtain ⟨ok, rest, htrace⟩ := build_vcore_init_call (L := L) hbs
  subst hpow
  have hp : 0 < 2 ^ shift := Nat.two_pow_pos _
  have hk : shift ≤ cfg.bits := by
    by_contra hlt
    have : 2 ^ cfg.bits ≤ 2 ^ shift := two_pow_le_of_le (by omega)
    omega
  have hwadd : wadd cfg.bits cfg.CFG_TEE_RAM_START cfg.CFG_TEE_RAM_VA_SIZE
      = cfg.CFG_TEE_RAM_START + cfg.CFG_TEE_RAM_VA_SIZE := wadd_of_lt (by omega)
  have hdown : ROUNDDOWN cfg.bits cfg.CFG_TEE_RAM_START (2 ^ shift)
      = cfg.CFG_TEE_RAM_START / 2 ^ shift * 2 ^ shift := ROUNDDOWN_eq hk (by omega)
  have hup : ROUNDUP cfg.bits (wadd cfg.bits cfg.CFG_TEE_RAM_START cfg.CFG_TEE_RAM_VA_SIZE)
      (2 ^ shift) = (cfg.CFG_TEE_RAM_START + cfg.CFG_TEE_RAM_VA_SIZE + (2 ^ shift - 1))
        / 2 ^ shift * 2 ^ shift := by
    rw [hwadd]
    exact ROUNDUP_eq hk hfit
  have hupm := Nat.div_add_mod (cfg.CFG_TEE_RAM_START + cfg.CFG_TEE_RAM_VA_SIZE
    + (2 ^ shift - 1)) (2 ^ shift)
  have hupl := Nat.mod_lt (cfg.CFG_TEE_RAM_START + cfg.CFG_TEE_RAM_VA_SIZE
    + (2 ^ shift - 1)) hp
  have hdm := Nat.div_add_mod cfg.CFG_TEE_RAM_START (2 ^ shift)
  have hdl := Nat.mod_lt cfg.CFG_TEE_RAM_START hp
  rw [Nat.mul_comm] at hupm hdm
  refine ⟨leaf, tbl, ok, rest, _, _, h1, h2, h3, htrace, rfl, rfl, hwadd, hdown, hup,
    ROUNDUP_lt _ _ _, ?_, ?_, ?_, ?_, ?_, ?_, ?_⟩
  · rw [hdown]; exact Nat.mul_mod_left _ _
  · rw [hup]; exact Nat.mul_mod_left _ _
  · rw [hdown]; omega
  · rw [hup]; omega
  · rw [hdown, hup]; omega
  · rw [hdown]; omega
  · rw [hup]; omega

/-- C10, witness: the sample build, a window of 1 MiB at `0x0e100000` with 1 MiB blocks;
`tee_mm_init` is called with the bounds `0x0e100000` and `0x0e200000`. -/
theorem C10_vcore_bounds_witness :
    ∃ leaf tbl ok rest low high,
      sampleEnv.core_mmu_find_table sampleConfig.CFG_TEE_RAM_START UINT_MAX = some leaf ∧
      sampleEnv.core_mmu_find_table sampleConfig.CFG_TEE_RAM_START (wsub 32 leaf.level 1)
        = some tbl ∧
      0x100000 = shl_one sampleConfig.bits tbl.shift ∧
      (build_vcore sampleConfig sampleEnv sampleLayout sampleState).state.trace =
        (get_block_size sampleConfig sampleEnv sampleState).state.trace ++
          Event.tee_mm_init low high SMALL_PAGE_SHIFT 0 ok :: rest ∧
      low = ROUNDDOWN sampleConfig.bits sampleConfig.CFG_TEE_RAM_START 0x100000 ∧
      high = ROUNDUP sampleConfig.bits (wadd sampleConfig.bits sampleConfig.CFG_TEE_RAM_START
        sampleConfig.CFG_TEE_RAM_VA_SIZE) 0x100000 ∧
      wadd sampleConfig.bits sampleConfig.CFG_TEE_RAM_START sampleConfig.CFG_TEE_RAM_VA_SIZE
        = sampleConfig.CFG_TEE_RAM_START + sampleConfig.CFG_TEE_RAM_VA_SIZE ∧
      low = sampleConfig.CFG_TEE_RAM_START / 0x100000 * 0x100000 ∧
      high = (sampleConfig.CFG_TEE_RAM_START + sampleConfig.CFG_TEE_RAM_VA_SIZE
        + (0x100000 - 1)) / 0x100000 * 0x100000 ∧
      high < 2 ^ sampleConfig.bits ∧
      low % 0x100000 = 0 ∧ high % 0x100000 = 0 ∧
      low ≤ sampleConfig.CFG_TEE_RAM_START ∧
      sampleConfig.CFG_TEE_RAM_START + sampleConfig.CFG_TEE_RAM_VA_SIZE ≤ high ∧
      low < high ∧
      sampleConfig.CFG_TEE_RAM_START - low < 0x100000 ∧
      high - (sampleConfig.CFG_TEE_RAM_START + sampleConfig.CFG_TEE_RAM_VA_SIZE) < 0x100000 :=
  C10_vcore_bounds sampleConfig sampleEnv sampleLayout sampleState 0x100000 20 (by decide)
    (by decide) (by decide) (by decide)

/-- C10, counterexample: two builds with 1 MiB blocks. In the first the window
`[0xfff00000, 0x100000000)` ends at the top of the 32-bit address space: the sum
`CFG_TEE_RAM_START + CFG_TEE_RAM_VA_SIZE` wraps to zero and `tee_mm_init` is called with
`low = 0xfff00000` and `high = 0`, below `low` and below the end of the window. In the second
the window at `0x0e100000` has size zero and `tee_mm_init` is called with `low = high =
0x0e100000`. Both calls fail and `init_runtime` halts. -/
theorem C10_counterexample :
    ((get_block_size topOfMemoryConfig sampleEnv sampleState).outcome = Outcome.done (2 ^ 20) ∧
      Event.tee_mm_init 0xfff00000 0 SMALL_PAGE_SHIFT 0 false ∈
        (init_runtime_pager topOfMemoryConfig sampleEnv sampleLayout samplePageablePart
          sampleState).state.trace ∧
      ROUNDDOWN 32 topOfMemoryConfig.CFG_TEE_RAM_START (2 ^ 20) = 0xfff00000 ∧
      ROUNDUP 32 (wadd 32 topOfMemoryConfig.CFG_TEE_RAM_START
        topOfMemoryConfig.CFG_TEE_RAM_VA_SIZE) (2 ^ 20) = 0 ∧
      ¬ (0xfff00000 < 0) ∧
      ¬ (topOfMemoryConfig.CFG_TEE_RAM_START + topOfMemoryConfig.CFG_TEE_RAM_VA_SIZE ≤ 0) ∧
      (init_runtime_pager topOfMemoryConfig sampleEnv sampleLayout samplePageablePart
        sampleState).outcome = Outcome.halt Halt.vcore_init_failed) ∧
    ((get_block_size emptyWindowConfig sampleEnv sampleState).outcome = Outcome.done (2 ^ 20) ∧
      Event.tee_mm_init 0x0e100000 0x0e100000 SMALL_PAGE_SHIFT 0 false ∈
        (init_runtime_pager emptyWindowConfig sampleEnv sampleLayout samplePageablePart
          sampleState).state.trace ∧
      ROUNDDOWN 32 emptyWindowConfig.CFG_TEE_RAM_START (2 ^ 20) = 0x0e100000 ∧
      ROUNDUP 32 (wadd 32 emptyWindowConfig.CFG_TEE_RAM_START
        emptyWindowConfig.CFG_TEE_RAM_VA_SIZE) (2 ^ 20) = 0x0e100000 ∧
      ¬ (0x0e100000 < 0x0e100000) ∧
      (init_runtime_pager emptyWindowConfig sampleEnv sampleLayout samplePageablePart
        sampleState).outcome = Outcome.halt Halt.vcore_init_failed) := by
  decide

/-! ## C8: the last page of the init part -/

theorem backfill_init_run {cfg : Config} {L : Layout} (store : Nat) (s : State)
    (h : init_size cfg L % SMALL_PAGE_SIZE ≠ 0) :
    backfill_init cfg L store s =
      ⟨{ s with
          mem := fun a =>
            if L.init_start + init_size cfg L ≤ a ∧ a < L.init_start + init_size cfg L +
                (SMALL_PAGE_SIZE - init_size cfg L % SMALL_PAGE_SIZE) then
              s.mem (store + init_size cfg L + (a - (L.init_start + init_size cfg L)))
            else s.mem a,
          trace := s.trace ++ [
            Event.memcpy (L.init_start + init_size cfg L) (store + init_size cfg L)
              (SMALL_PAGE_SIZE - init_size cfg L % SMALL_PAGE_SIZE),
            Event.cache_maintenance_l1 CacheOp.DCACHE_AREA_CLEAN
              (wadd cfg.bits L.init_start (init_size cfg L) &&& wnot cfg.bits SMALL_PAGE_MASK)
              SMALL_PAGE_SIZE,
            Event.cache_maintenance_l1 CacheOp.ICACHE_AREA_INVALIDATE
              (wadd cfg.bits L.init_start (init_size cfg L) &&& wnot cfg.bits SMALL_PAGE_MASK)
              SMALL_PAGE_SIZE] },
        Outcome.done ()⟩ := by
  unfold backfill_init
  simp [bind_run, emit, memcpy, h]

/-- The state in which the relocation of a completed `init_runtime_relocated` started. -/
theorem init_runtime_relocated_run {cfg : Config} {env : Env} {L : Layout} {pp : Nat}
    {s : State} {r : Nat × Nat}
    (h : (init_runtime_relocated cfg env L pp s).outcome = Outcome.done r) :
    ∃ s0 t0, s0.trace = s.trace ++ t0 ∧
      (relocate cfg env L pp s0).outcome = Outcome.done r.2 ∧
      (init_runtime_relocated cfg env L pp s).state = (relocate cfg env L pp s0).state := by
  unfold init_runtime_relocated at h ⊢
  obtain ⟨hs, h1, e3⟩ := bind_done h
  rw [e3] at h ⊢
  obtain ⟨hashes, h2, e4⟩ := bind_done h
  rw [e4] at h ⊢
  obtain ⟨store, h3, e5⟩ := bind_done h
  rw [e5] at h ⊢
  simp only [Boot.pure, Outcome.done.injEq] at h
  obtain ⟨ta, hta, _⟩ := (check_hash_size_emits cfg.bits SMALL_PAGE_SIZE TEE_SHA256_HASH_SIZE
    (pageable_size cfg L) L.tmp_hashes_size).out s
  obtain ⟨tb, htb, _⟩ := (load_hashes_emits cfg env L hs).out
    (check_hash_size cfg.bits SMALL_PAGE_SIZE TEE_SHA256_HASH_SIZE
      (pageable_size cfg L) L.tmp_hashes_size s).state
  refine ⟨(load_hashes cfg env L hs (check_hash_size cfg.bits SMALL_PAGE_SIZE
    TEE_SHA256_HASH_SIZE (pageable_size cfg L) L.tmp_hashes_size s).state).state,
    ta ++ tb, ?_, ?_, rfl⟩
  · rw [htb, hta, List.append_assoc]
  · rw [h3, ← h]

/-- The state of a completed image part of `init_runtime` whose init part ends inside a
page, in terms of the state `s0` in which the relocation started. -/
theorem init_runtime_image_run {cfg : Config} {env : Env} {L : Layout} {pp : Nat} {s : State}
    {r : Nat × Nat}
    (hdone : (init_runtime_image cfg env L pp s).outcome = Outcome.done r)
    (hrem : init_size cfg L % SMALL_PAGE_SIZE ≠ 0) :
    ∃ s0 t0 tl,
      s0.trace = s.trace ++ t0 ∧
      (relocate cfg env L pp s0).outcome = Outcome.done r.2 ∧
      pageable_size cfg L % 4096 = 0 ∧
      (init_runtime_image cfg env L pp s).state =
        (backfill_init cfg L r.2
          { (relocate cfg env L pp s0).state with
            trace := (relocate cfg env L pp s0).state.trace ++ tl }).state := by
  have hrel := init_runtime_image_done hdone
  have hmod := init_runtime_relocated_done hrel
  obtain ⟨s0, t0, ht0, hr0, hs0⟩ := init_runtime_relocated_run hrel
  unfold init_runtime_image at hdone ⊢
  rw [bind_run_done hrel] at hdone ⊢
  have hk : pageable_size cfg L = (pageable_size cfg L / 4096) * 4096 := by omega
  obtain ⟨tl, hst, _⟩ := check_pages_run cfg.bits env r.1 r.2 (pageable_size cfg L)
    (pageable_size cfg L / 4096) hk (pageable_size_lt cfg L) (pageable_size cfg L + 1) 0
    (init_runtime_relocated cfg env L pp s).state (Nat.zero_le _) (by omega)
  obtain ⟨_, hloop, e2⟩ := bind_done hdone
  rw [e2, hst, hs0]
  refine ⟨s0, t0, tl, ht0, hr0, hmod, ?_⟩
  rw [bind_run, backfill_init_run _ _ hrem]
  rfl

theorem page_of_partial {a v : Nat} (ha : a % 4096 = 0) (hv : v % 4096 ≠ 0) :
    (a + v) / 4096 * 4096 = a + roundup v 4096 - 4096 := by
  unfold roundup
  omega

/-- C8 (amended): assume the init part starts on a page boundary, its last page lies in the
address space, the two copies stay inside the store (`init_size` plus the size of the
pageable part is at most `pageable_size`) and the store does not overlap the pages of the
init part. When every page hash verifies and `init_size` is not a multiple of the page size,
the last three calls of the image part of `init_runtime` are the copy of the store bytes at
offsets `[init_size, ROUNDUP(init_size, page))` to the same offsets from `__init_start` and
the two cache operations on the page that holds all the copied bytes; the read stays inside
the store; and afterwards the bytes at `[__init_start, __init_start + ROUNDUP(init_size,
page))` equal the first `ROUNDUP(init_size, page)` bytes of the store. -/
theorem C8_last_init_page_completed (cfg : Config) (env : Env) (L : Layout) (pp : Nat)
    (s : State) (hashes store : Nat)
    (hdone : (init_runtime_image cfg env L pp s).outcome = Outcome.done (hashes, store))
    (hrem : init_size cfg L % 4096 ≠ 0)
    (halign : L.init_start % 4096 = 0)
    (hfit : L.init_start + roundup (init_size cfg L) 4096 ≤ 2 ^ cfg.bits)
    (hsum : init_size cfg L + pageable_part_size cfg L ≤ pageable_size cfg L)
    (hdisj : L.init_start + roundup (init_size cfg L) 4096 ≤ store ∨
      store + pageable_size cfg L ≤ L.init_start) :
    ∃ t,
      (init_runtime_image cfg env L pp s).state.trace = s.trace ++ t ++ [
        Event.memcpy (L.init_start + init_size cfg L) (store + init_size cfg L)
          (roundup (init_size cfg L) 4096 - init_size cfg L),
        Event.cache_maintenance_l1 CacheOp.DCACHE_AREA_CLEAN
          (L.init_start + roundup (init_size cfg L) 4096 - 4096) 4096,
        Event.cache_maintenance_l1 CacheOp.ICACHE_AREA_INVALIDATE
          (L.init_start + roundup (init_size cfg L) 4096 - 4096) 4096] ∧
      -- the read `[store + init_size, store + ROUNDUP(init_size))` stays inside the store
      init_size cfg L + (roundup (init_size cfg L) 4096 - init_size cfg L)
        ≤ pageable_size cfg L ∧
      -- the init pages hold the verified bytes of the store
      (∀ i, i < roundup (init_size cfg L) 4096 →
        (init_runtime_image cfg env L pp s).state.mem (L.init_start + i)
          = (init_runtime_image cfg env L pp s).state.mem (store + i)) ∧
      -- the page of the cache operations holds all the copied bytes
      (L.init_start + roundup (init_size cfg L) 4096 - 4096) % 4096 = 0 ∧
      L.init_start + roundup (init_size cfg L) 4096 - 4096 ≤ L.init_start + init_size cfg L ∧
      L.init_start + init_size cfg L + (roundup (init_size cfg L) 4096 - init_size cfg L)
        ≤ L.init_start + roundup (init_size cfg L) 4096 - 4096 + 4096 := by
  obtain ⟨s0, t0, tl, ht0, hr0, hmod, hst⟩ := init_runtime_image_run hdone hrem
  simp only at hr0 hst
  have hR := roundup_page_of_mod hrem
  have hbits : 12 ≤ cfg.bits := twelve_le_of_page_le (by omega)
  have hRmod := roundup_mod (init_size cfg L) 4096
  have hpsz := pageable_size_lt cfg L
  have hisz : init_size cfg L ≤ pageable_size cfg L := by omega
  have hRle : roundup (init_size cfg L) 4096 ≤ pageable_size cfg L :=
    roundup_le_of_le_of_mod (by norm_num) hisz hmod
  have hp : wadd cfg.bits L.init_start (init_size cfg L) &&& wnot cfg.bits SMALL_PAGE_MASK
      = L.init_start + roundup (init_size cfg L) 4096 - 4096 := by
    have hlt : L.init_start + init_size cfg L < 2 ^ cfg.bits := by omega
    have hm : SMALL_PAGE_MASK = 2 ^ 12 - 1 := by norm_num [SMALL_PAGE_MASK]
    rw [wadd_of_lt hlt, hm, wnot_mask hbits, land_wnot_mask cfg.bits 12 _ hbits hlt]
    exact page_of_partial halign hrem
  rw [backfill_init_run _ _ hrem] at hst
  unfold pageable_part_size at hsum
  -- after the relocation the init part and the head of the store hold the same bytes
  have hrel : ∃ t1, (relocate cfg env L pp s0).state.trace = s0.trace ++ t1 ∧
      ∀ i, i < init_size cfg L →
        (relocate cfg env L pp s0).state.mem (L.init_start + i) = s0.mem (L.init_start + i) ∧
        (relocate cfg env L pp s0).state.mem (store + i) = s0.mem (L.init_start + i) := by
    cases halloc : env.tee_mm_alloc env.teecore_init_ta_ram (pageable_size cfg L) with
    | none => rw [relocate_run_none halloc] at hr0; simp at hr0
    | some mm =>
      rw [relocate_run_some halloc] at hr0 ⊢
      simp only [Outcome.done.injEq] at hr0
      subst hr0
      refine ⟨_, rfl, ?_⟩
      intro i hi
      constructor
      · simp only
        split_ifs <;> first | rfl | omega
      · simp only
        split_ifs <;> first | rfl | omega | (congr 1; omega)
  obtain ⟨t1, ht1, hmem⟩ := hrel
  refine ⟨t0 ++ t1 ++ tl, ?_, ?_, ?_, ?_, ?_, ?_⟩
  · rw [hst]
    simp only [hp, ht0, ht1, SMALL_PAGE_SIZE, List.append_assoc]
    have e : 4096 - init_size cfg L % 4096 = roundup (init_size cfg L) 4096 - init_size cfg L := by
      omega
    rw [e]
  · omega
  · intro i hi
    rw [hst]
    simp only [SMALL_PAGE_SIZE]
    by_cases h1 : i < init_size cfg L
    · rw [if_neg (by omega), if_neg (by omega), (hmem i h1).1, (hmem i h1).2]
    · rw [if_pos (by omega), if_neg (by omega)]
      congr 1
      omega
  · omega
  · omega
  · omega

/-- C8, witness: in the sample run the init part of `0x1800` bytes ends in the middle of its
second page; the upper half of that page is copied back from the store. -/
theorem C8_last_init_page_completed_witness :
    ∃ t,
      (init_runtime_image sampleConfig sampleEnv sampleLayout samplePageablePart
        sampleState).state.trace = sampleState.trace ++ t ++ [
        Event.memcpy (sampleLayout.init_start + init_size sampleConfig sampleLayout)
          (0x0f000000 + init_size sampleConfig sampleLayout)
          (roundup (init_size sampleConfig sampleLayout) 4096
            - init_size sampleConfig sampleLayout),
        Event.cache_maintenance_l1 CacheOp.DCACHE_AREA_CLEAN
          (sampleLayout.init_start + roundup (init_size sampleConfig sampleLayout) 4096 - 4096)
          4096,
        Event.cache_maintenance_l1 CacheOp.ICACHE_AREA_INVALIDATE
          (sampleLayout.init_start + roundup (init_size sampleConfig sampleLayout) 4096 - 4096)
          4096] ∧
      init_size sampleConfig sampleLayout + (roundup (init_size sampleConfig sampleLayout) 4096
          - init_size sampleConfig sampleLayout) ≤ pageable_size sampleConfig sampleLayout ∧
      (∀ i, i < roundup (init_size sampleConfig sampleLayout) 4096 →
        (init_runtime_image sampleConfig sampleEnv sampleLayout samplePageablePart
            sampleState).state.mem (sampleLayout.init_start + i)
          = (init_runtime_image sampleConfig sampleEnv sampleLayout samplePageablePart
            sampleState).state.mem (0x0f000000 + i)) ∧
      (sampleLayout.init_start + roundup (init_size sampleConfig sampleLayout) 4096 - 4096)
        % 4096 = 0 ∧
      sampleLayout.init_start + roundup (init_size sampleConfig sampleLayout) 4096 - 4096
        ≤ sampleLayout.init_start + init_size sampleConfig sampleLayout ∧
      sampleLayout.init_start + init_size sampleConfig sampleLayout
          + (roundup (init_size sampleConfig sampleLayout) 4096
            - init_size sampleConfig sampleLayout)
        ≤ sampleLayout.init_start + roundup (init_size sampleConfig sampleLayout) 4096
            - 4096 + 4096 :=
  C8_last_init_page_completed sampleConfig sampleEnv sampleLayout samplePageablePart sampleState
    0x0e102000 0x0f000000 (by decide) (by decide) (by decide) (by decide) (by decide)
    (by decide)

/-- C8, counterexample: two runs in which every page hash verifies and the init part ends
inside a page. In the first the init part (`0x1800` bytes) is longer than the store of one
page, and the copy reads the store offsets `[0x1800, 0x2000)`, beyond its `0x1000` bytes. In
the second the init part starts at `0x0e110800`, the copy writes `[0x0e111801, 0x0e112800)`,
and the page `[0x0e111000, 0x0e112000)` given to the cache operations does not hold all of
these bytes. -/
theorem C8_counterexample :
    ((init_runtime_image sampleConfig sampleEnv initBeyondLayout samplePageablePart
        sampleState).outcome = Outcome.done (0x0e102000, 0x0f000000) ∧
      pageable_size sampleConfig initBeyondLayout = 0x1000 ∧
      Event.memcpy (0x0e110000 + 0x1800) (0x0f000000 + 0x1800) 0x800 ∈
        (init_runtime_image sampleConfig sampleEnv initBeyondLayout samplePageablePart
          sampleState).state.trace ∧
      ¬ (0x1800 + 0x800 ≤ 0x1000)) ∧
    ((init_runtime_image sampleConfig sampleEnv unalignedLayout samplePageablePart
        sampleState).outcome = Outcome.done (0x0e102000, 0x0f000000) ∧
      Event.memcpy 0x0e111801 (0x0f000000 + 0x1001) 0xfff ∈
        (init_runtime_image sampleConfig sampleEnv unalignedLayout samplePageablePart
          sampleState).state.trace ∧
      Event.cache_maintenance_l1 CacheOp.DCACHE_AREA_CLEAN 0x0e111000 4096 ∈
        (init_runtime_image sampleConfig sampleEnv unalignedLayout samplePageablePart
          sampleState).state.trace ∧
      Event.cache_maintenance_l1 CacheOp.ICACHE_AREA_INVALIDATE 0x0e111000 4096 ∈
        (init_runtime_image sampleConfig sampleEnv unalignedLayout samplePageablePart
          sampleState).state.trace ∧
      ¬ (0x0e111801 + 0xfff ≤ 0x0e111000 + 4096)) := by
  decide

end GenericBoot
